import Mathlib

/-!
Verification of the OSB protocol client core of k8s-service-catalog
(broker-cli): the asynchronous-operation poller `waitOnOperation`, the
HTTP adapter's response interpretation, broker-URL resolution, and the
broker cleanup orchestration.

Modelling conventions (shallow embedding of the Go source):
  * Go durations are natural numbers of milliseconds.
  * Go strings handled only opaquely (ids, states, bodies) are Lean
    `String`s; the strings that `BrokerURL` splits on slashes are
    `List Char` (`GoStr`): `strings.Split(s, sep)` for the one-character
    separator is `List.splitOn` and `strings.HasPrefix` is re-implemented
    below.
  * `encoding/json` (an external library) is a parameter: each adapter
    function takes the unmarshalling function for its response-body type
    as an argument of type `String → Except String T`.
  * The HTTP transport is external; adapter functions are embedded from
    the point where `doOSBRequest` has returned `(statusCode, body)`.
  * The potentially unbounded polling loop takes fuel and returns
    `none` when the fuel is exhausted before a terminal state.
-/

/-- Single-quote character, used to build string literals faithful to the
Go sources without a quote character appearing in this file. -/
def apos : String := (Char.ofNat 39).toString

/-- Operation is the result of a successful operation polling request
(adapter.Operation). -/
structure Operation where
  State : String
  Description : String
deriving DecidableEq, Repr

/-- OperationType is the enum of OSB operation types (adapter.OperationType). -/
inductive OperationType where
  | Create
  | Update
  | Delete
  | Unknown
deriving DecidableEq, Repr

/-- adapter.OperationSucceeded. -/
def OperationSucceeded : String := "succeeded"

/-- adapter.OperationFailed. -/
def OperationFailed : String := "failed"

/-- adapter.OperationInProgress. -/
def OperationInProgress : String := "in progress"

/-! ## The operation poller (waitOnOperation, broker-cli/cmd) -/

/-- baseDelay of waitOnOperation: 100 milliseconds. -/
def baseDelay : Nat := 100

/-- maxDelay of waitOnOperation: 6 seconds, in milliseconds. -/
def maxDelay : Nat := 6000

/-- The delay update performed at the bottom of each iteration of
waitOnOperation: `if delay < maxDelay { delay = min(maxDelay, 2*delay) }`. -/
def nextDelay (delay : Nat) : Nat :=
  if delay < maxDelay then min maxDelay (2 * delay) else delay

/-- The loop of waitOnOperation.  `poll i` is the result of the i-th call
of the supplied last-operation function (a transport error or an
Operation); `fuel` bounds the number of remaining iterations (the Go loop
is unbounded); `i` counts the calls made so far; `delay` is the current
sleep duration and `sleeps` accumulates the durations slept so far.
Returns the final result of the loop together with the total number of
poll calls and the whole sleep sequence, or `none` when the fuel runs out
while the operation is still in progress. -/
def waitLoop (poll : Nat → Except String Operation) :
    Nat → Nat → Nat → List Nat → Option (Except String Operation × Nat × List Nat)
  | 0, _, _, _ => none
  | fuel + 1, i, delay, sleeps =>
    match poll i with
    | Except.error e => some (Except.error e, i + 1, sleeps ++ [delay])
    | Except.ok op =>
      if op.State = OperationInProgress then
        waitLoop poll fuel (i + 1) (nextDelay delay) (sleeps ++ [delay])
      else
        some (Except.ok op, i + 1, sleeps ++ [delay])

/-- waitOnOperation (broker-cli/cmd): poll the last-operation function with
exponential backoff until the reported state is no longer `in progress`,
aborting on the first error. -/
def waitOnOperation (poll : Nat → Except String Operation) (fuel : Nat) :
    Option (Except String Operation × Nat × List Nat) :=
  waitLoop poll fuel 0 baseDelay []

/-- The sequence of sleep delays of the poller, starting from `d`. -/
def iterDelay (d : Nat) : Nat → Nat
  | 0 => d
  | j + 1 => iterDelay (nextDelay d) j

/-- The sequence of sleep delays of waitOnOperation: 100ms, then doubling,
capped at 6s. -/
def delaySeq : Nat → Nat := iterDelay baseDelay

/-! ## The protocol adapter (broker-cli/client/adapter/httpadapter) -/

/-- BrokerError is the result of a failed broker request (adapter.BrokerError). -/
structure BrokerError where
  StatusCode : Nat
  ErrorDescription : String
  ErrorBody : String
deriving DecidableEq, Repr

/-- The errors an adapter call can return: either a plain formatted error
(Go `fmt.Errorf`) or a structured `*BrokerError`. -/
inductive AdapterError where
  | plain (msg : String)
  | broker (e : BrokerError)
deriving DecidableEq, Repr

/-- gcpBrokerError, the provider-specific nested error envelope. -/
structure GcpBrokerError where
  code : Int
  message : String
  status : String
  details : List (Option String)
deriving DecidableEq, Repr

/-- gcpBrokerFailureResponseBody, the failure-response envelope the adapter
attempts to parse. -/
structure GcpBrokerFailureResponseBody where
  error : Option GcpBrokerError
deriving DecidableEq, Repr

/-- Decoder for a response-body type: the embedding of `json.Unmarshal`
applied to a body of raw bytes, producing either the decoded value or an
unmarshalling error.  Supplied as a parameter because `encoding/json` is
external to the repository. -/
abbrev Unmarshal (T : Type) := String → Except String T

/-- validateGCPFailureResponse: wrap a failure response into a BrokerError,
trying to parse the GCP error envelope but degrading to the raw body when
parsing fails. -/
def validateGCPFailureResponse (unmGCP : Unmarshal GcpBrokerFailureResponseBody)
    (body : String) (code : Nat) (desc : String) : BrokerError :=
  match unmGCP body with
  | Except.error _ =>
    { StatusCode := code
      ErrorDescription := "error unmarshalling failure response body"
      ErrorBody := body }
  | Except.ok _ =>
    { StatusCode := code
      ErrorDescription := desc
      ErrorBody := body }

/-- osb.ProvisionResponseBody. -/
structure ProvisionResponseBody where
  DashboardURL : String
  Operation : String
deriving DecidableEq, Repr

/-- osb.DeprovisionResponseBody. -/
structure DeprovisionResponseBody where
  Operation : String
deriving DecidableEq, Repr

/-- osb.UpdateInstanceResponseBody. -/
structure UpdateInstanceResponseBody where
  Operation : String
deriving DecidableEq, Repr

/-- osb.BindResponseBody.  The free-form CF-specific payloads are carried
opaquely. -/
structure BindResponseBody where
  Credentials : String
  SyslogDrainURL : Option String
  RouteServiceURL : Option String
  VolumeMounts : String
  Operation : String
deriving DecidableEq, Repr

/-- osb.UnbindResponseBody. -/
structure UnbindResponseBody where
  Operation : String
deriving DecidableEq, Repr

/-- osb.OperationResponseBody. -/
structure OperationResponseBody where
  State : String
  Description : String
deriving DecidableEq, Repr

/-- adapter.CreateInstanceParams.  `Context` and `Parameters` (opaque JSON
maps that only enter the request body, never the response interpretation)
are omitted. -/
structure CreateInstanceParams where
  Server : String
  APIVersion : String
  AcceptsIncomplete : Bool
  InstanceID : String
  ServiceID : String
  PlanID : String
  OrganizationGUID : String
  SpaceGUID : String
deriving DecidableEq, Repr

/-- adapter.CreateInstanceResult. -/
structure CreateInstanceResult where
  Async : Bool
  DashboardURL : String
  OperationID : String
deriving DecidableEq, Repr

/-- adapter.DeleteInstanceParams. -/
structure DeleteInstanceParams where
  Server : String
  APIVersion : String
  AcceptsIncomplete : Bool
  InstanceID : String
  ServiceID : String
  PlanID : String
deriving DecidableEq, Repr

/-- adapter.DeleteInstanceResult. -/
structure DeleteInstanceResult where
  Async : Bool
  OperationID : String
deriving DecidableEq, Repr

/-- adapter.UpdateInstanceParams (request-only opaque maps omitted). -/
structure UpdateInstanceParams where
  Server : String
  APIVersion : String
  AcceptsIncomplete : Bool
  InstanceID : String
  ServiceID : String
  PlanID : String
  PreviousServiceID : String
  PreviousPlanID : String
  PreviousOrganizationID : String
  PreviousSpaceID : String
deriving DecidableEq, Repr

/-- adapter.UpdateInstanceResult. -/
structure UpdateInstanceResult where
  Async : Bool
  OperationID : String
deriving DecidableEq, Repr

/-- adapter.CreateBindingParams (request-only opaque maps omitted). -/
structure CreateBindingParams where
  Server : String
  APIVersion : String
  AcceptsIncomplete : Bool
  InstanceID : String
  BindingID : String
  ServiceID : String
  PlanID : String
  AppGUID : String
deriving DecidableEq, Repr

/-- adapter.CreateBindingResult. -/
structure CreateBindingResult where
  Async : Bool
  Credentials : String
  SyslogDrainURL : Option String
  RouteServiceURL : Option String
  VolumeMounts : String
  OperationID : String
deriving DecidableEq, Repr

/-- adapter.DeleteBindingParams. -/
structure DeleteBindingParams where
  Server : String
  APIVersion : String
  AcceptsIncomplete : Bool
  InstanceID : String
  BindingID : String
  ServiceID : String
  PlanID : String
deriving DecidableEq, Repr

/-- adapter.DeleteBindingResult. -/
structure DeleteBindingResult where
  Async : Bool
  OperationID : String
deriving DecidableEq, Repr

/-- adapter.LastOperationParams. -/
structure LastOperationParams where
  APIVersion : String
  ServiceID : String
  PlanID : String
  OperationID : String
  OperationType : OperationType
deriving DecidableEq, Repr

/-- adapter.InstanceLastOperationParams (embedded LastOperationParams as a
field). -/
structure InstanceLastOperationParams where
  Server : String
  InstanceID : String
  lastOp : LastOperationParams
deriving DecidableEq, Repr

/-- adapter.BindingLastOperationParams. -/
structure BindingLastOperationParams where
  Server : String
  InstanceID : String
  BindingID : String
  lastOp : LastOperationParams
deriving DecidableEq, Repr

/-- The `instance` resource key used in last-operation messages. -/
def instanceKey : String := "instance"

/-- The `binding` resource key used in last-operation messages. -/
def bindingKey : String := "binding"

/-- The error message of the `202 while AcceptsIncomplete is false` case. -/
def asyncNotAllowedMsg (respBody : String) : String :=
  "request shouldn" ++ apos ++ "t be handled asynchronously: " ++ respBody

/-- The error message wrapped around a response body that failed to
unmarshal. -/
def unmarshalErrMsg (respBody : String) : String :=
  "error unmarshalling response body: " ++ respBody

/-- CreateInstance (httpadapter), from the point where `doOSBRequest` has
returned `(respCode, respBody)`: interpret the provision response. -/
def CreateInstance (unmProv : Unmarshal ProvisionResponseBody)
    (unmGCP : Unmarshal GcpBrokerFailureResponseBody)
    (params : CreateInstanceParams) (respCode : Nat) (respBody : String) :
    Except AdapterError CreateInstanceResult :=
  let unmarshalSuccessResponse : String → Bool → Except AdapterError CreateInstanceResult :=
    fun body isAsync =>
      match unmProv body with
      | Except.error _ => Except.error (AdapterError.plain (unmarshalErrMsg body))
      | Except.ok rb =>
        Except.ok { Async := isAsync, DashboardURL := rb.DashboardURL, OperationID := rb.Operation }
  if respCode = 200 ∨ respCode = 201 then
    unmarshalSuccessResponse respBody false
  else if respCode = 202 then
    if ¬ params.AcceptsIncomplete then
      Except.error (AdapterError.plain (asyncNotAllowedMsg respBody))
    else
      unmarshalSuccessResponse respBody true
  else if respCode = 400 then
    Except.error (AdapterError.broker (validateGCPFailureResponse unmGCP respBody respCode
      "request was malformed or missing mandatory data"))
  else if respCode = 409 then
    Except.error (AdapterError.broker (validateGCPFailureResponse unmGCP respBody respCode
      "instance with the same id but different attributes already exists"))
  else if respCode = 422 then
    Except.error (AdapterError.broker (validateGCPFailureResponse unmGCP respBody respCode
      "the broker only supports asynchronous requests"))
  else
    Except.error (AdapterError.broker (validateGCPFailureResponse unmGCP respBody respCode
      "request was not successful"))

/-- DeleteInstance (httpadapter): interpret the deprovision response. -/
def DeleteInstance (unmDeprov : Unmarshal DeprovisionResponseBody)
    (unmGCP : Unmarshal GcpBrokerFailureResponseBody)
    (params : DeleteInstanceParams) (respCode : Nat) (respBody : String) :
    Except AdapterError DeleteInstanceResult :=
  if respCode = 200 ∨ respCode = 410 then
    Except.ok { Async := false, OperationID := "" }
  else if respCode = 202 then
    if ¬ params.AcceptsIncomplete then
      Except.error (AdapterError.plain (asyncNotAllowedMsg respBody))
    else
      match unmDeprov respBody with
      | Except.error _ => Except.error (AdapterError.plain (unmarshalErrMsg respBody))
      | Except.ok rb => Except.ok { Async := true, OperationID := rb.Operation }
  else if respCode = 400 then
    Except.error (AdapterError.broker (validateGCPFailureResponse unmGCP respBody respCode
      "request was malformed or missing mandatory data"))
  else if respCode = 422 then
    Except.error (AdapterError.broker (validateGCPFailureResponse unmGCP respBody respCode
      "the broker only supports asynchronous requests"))
  else
    Except.error (AdapterError.broker (validateGCPFailureResponse unmGCP respBody respCode
      "request was not successful"))

/-- UpdateInstance (httpadapter): interpret the update response. -/
def UpdateInstance (unmUpd : Unmarshal UpdateInstanceResponseBody)
    (unmGCP : Unmarshal GcpBrokerFailureResponseBody)
    (params : UpdateInstanceParams) (respCode : Nat) (respBody : String) :
    Except AdapterError UpdateInstanceResult :=
  let unmarshalSuccessResponse : String → Bool → Except AdapterError UpdateInstanceResult :=
    fun body isAsync =>
      match unmUpd body with
      | Except.error _ => Except.error (AdapterError.plain (unmarshalErrMsg body))
      | Except.ok rb => Except.ok { Async := isAsync, OperationID := rb.Operation }
  if respCode = 200 then
    unmarshalSuccessResponse respBody false
  else if respCode = 202 then
    if ¬ params.AcceptsIncomplete then
      Except.error (AdapterError.plain (asyncNotAllowedMsg respBody))
    else
      unmarshalSuccessResponse respBody true
  else if respCode = 400 then
    Except.error (AdapterError.broker (validateGCPFailureResponse unmGCP respBody respCode
      "request was malformed or missing mandatory data"))
  else if respCode = 422 then
    Except.error (AdapterError.broker (validateGCPFailureResponse unmGCP respBody respCode
      "the broker only supports asynchronous requests"))
  else
    Except.error (AdapterError.broker (validateGCPFailureResponse unmGCP respBody respCode
      "request was not successful"))

/-- CreateBinding (httpadapter): interpret the bind response. -/
def CreateBinding (unmBind : Unmarshal BindResponseBody)
    (unmGCP : Unmarshal GcpBrokerFailureResponseBody)
    (params : CreateBindingParams) (respCode : Nat) (respBody : String) :
    Except AdapterError CreateBindingResult :=
  let marshalSuccessResponse : String → Bool → Except AdapterError CreateBindingResult :=
    fun body isAsync =>
      match unmBind body with
      | Except.error _ => Except.error (AdapterError.plain (unmarshalErrMsg body))
      | Except.ok rb =>
        Except.ok { Async := isAsync
                    Credentials := rb.Credentials
                    SyslogDrainURL := rb.SyslogDrainURL
                    RouteServiceURL := rb.RouteServiceURL
                    VolumeMounts := rb.VolumeMounts
                    OperationID := rb.Operation }
  if respCode = 200 ∨ respCode = 201 then
    marshalSuccessResponse respBody false
  else if respCode = 202 then
    if ¬ params.AcceptsIncomplete then
      Except.error (AdapterError.plain (asyncNotAllowedMsg respBody))
    else
      marshalSuccessResponse respBody true
  else if respCode = 400 then
    Except.error (AdapterError.broker (validateGCPFailureResponse unmGCP respBody respCode
      "request was malformed or missing mandatory data"))
  else if respCode = 409 then
    Except.error (AdapterError.broker (validateGCPFailureResponse unmGCP respBody respCode
      "binding with the same id but different attributes already exists"))
  else if respCode = 422 then
    Except.error (AdapterError.broker (validateGCPFailureResponse unmGCP respBody respCode
      "the broker only supports asynchronous requests"))
  else
    Except.error (AdapterError.broker (validateGCPFailureResponse unmGCP respBody respCode
      "request was not successful"))

/-- DeleteBinding (httpadapter): interpret the unbind response. -/
def DeleteBinding (unmUnbind : Unmarshal UnbindResponseBody)
    (unmGCP : Unmarshal GcpBrokerFailureResponseBody)
    (params : DeleteBindingParams) (respCode : Nat) (respBody : String) :
    Except AdapterError DeleteBindingResult :=
  if respCode = 200 ∨ respCode = 410 then
    Except.ok { Async := false, OperationID := "" }
  else if respCode = 202 then
    if ¬ params.AcceptsIncomplete then
      Except.error (AdapterError.plain (asyncNotAllowedMsg respBody))
    else
      match unmUnbind respBody with
      | Except.error _ => Except.error (AdapterError.plain (unmarshalErrMsg respBody))
      | Except.ok rb => Except.ok { Async := true, OperationID := rb.Operation }
  else if respCode = 400 then
    Except.error (AdapterError.broker (validateGCPFailureResponse unmGCP respBody respCode
      "request was malformed or missing mandatory data"))
  else if respCode = 422 then
    Except.error (AdapterError.broker (validateGCPFailureResponse unmGCP respBody respCode
      "the broker only supports asynchronous requests"))
  else
    Except.error (AdapterError.broker (validateGCPFailureResponse unmGCP respBody respCode
      "request was not successful"))

/-- lastOperation (httpadapter): interpret the last-operation response for
a resource (`instance` or `binding`).  On 410, an operation of type Delete
is synthesized as succeeded; any other operation type is an error. -/
def lastOperation (unmOp : Unmarshal OperationResponseBody)
    (unmGCP : Unmarshal GcpBrokerFailureResponseBody)
    (resource : String) (params : LastOperationParams)
    (respCode : Nat) (respBody : String) : Except AdapterError Operation :=
  if respCode = 200 then
    match unmOp respBody with
    | Except.error _ => Except.error (AdapterError.plain (unmarshalErrMsg respBody))
    | Except.ok rb => Except.ok { State := rb.State, Description := rb.Description }
  else if respCode = 400 then
    Except.error (AdapterError.broker (validateGCPFailureResponse unmGCP respBody respCode
      "request was malformed or missing mandatory data"))
  else if respCode = 410 then
    if params.OperationType = OperationType.Delete then
      Except.ok { State := OperationSucceeded
                  Description := "The " ++ resource ++ " doesn" ++ apos ++ "t exist." }
    else
      Except.error (AdapterError.broker (validateGCPFailureResponse unmGCP respBody respCode
        (resource ++ " doesn" ++ apos ++ "t exist")))
  else
    Except.error (AdapterError.broker (validateGCPFailureResponse unmGCP respBody respCode
      "request was not successful"))

/-- InstanceLastOperation (httpadapter). -/
def InstanceLastOperation (unmOp : Unmarshal OperationResponseBody)
    (unmGCP : Unmarshal GcpBrokerFailureResponseBody)
    (params : InstanceLastOperationParams)
    (respCode : Nat) (respBody : String) : Except AdapterError Operation :=
  lastOperation unmOp unmGCP instanceKey params.lastOp respCode respBody

/-- BindingLastOperation (httpadapter). -/
def BindingLastOperation (unmOp : Unmarshal OperationResponseBody)
    (unmGCP : Unmarshal GcpBrokerFailureResponseBody)
    (params : BindingLastOperationParams)
    (respCode : Nat) (respBody : String) : Except AdapterError Operation :=
  lastOperation unmOp unmGCP bindingKey params.lastOp respCode respBody

/-- Whether an Except value is an error. -/
def isErr {ε α : Type} : Except ε α → Bool
  | Except.error _ => true
  | Except.ok _ => false

/-! ## Broker URL resolution (broker-cli/cmd/flags/brokerurl) -/

/-- Go strings that the URL helpers split and compare, modelled as lists of
characters. -/
abbrev GoStr := List Char

/-- Literal conversion for `GoStr`. -/
def gs (s : String) : GoStr := s.data

/-- The slash separator of `strings.Split(s, "/")`. -/
def slash : Char := '/'

/-- strings.HasPrefix(s, pre). -/
def goHasPre (s pre : GoStr) : Bool :=
  match s, pre with
  | _, [] => true
  | [], _ :: _ => false
  | c :: s2, p :: ps => c = p && goHasPre s2 ps

/-- brokersKey. -/
def brokersKey : GoStr := gs "brokers"

/-- projectsKey. -/
def projectsKey : GoStr := gs "projects"

/-- betaKey. -/
def betaKey : GoStr := gs "v1beta1"

/-- BrokerURLConstructor (flags package): the fields from which a broker
URL is generated. -/
structure BrokerURLConstructor where
  Broker : GoStr
  Host : GoStr
  Project : GoStr
  Server : GoStr
deriving DecidableEq, Repr

/-- The errors of BrokerURL and validateServer, one per `fmt.Errorf` site
(the formatted message texts carry no further information). -/
inductive BrokerURLError where
  | mustSpecifyOne
  | mustNotSpecifyBoth
  | serverNotBeginWithHost
  | invalidServerURL
deriving DecidableEq, Repr

/-- ConstructBrokerURL(host, project, broker). -/
def ConstructBrokerURL (host project broker : GoStr) : GoStr :=
  host ++ gs "/v1beta1/projects/" ++ project ++ gs "/brokers/" ++ broker

/-- validateServer (brokerurl.go): check that the explicit server URL
begins with the host and ends in `v1beta1/<x>/projects/<p>/brokers/<b>`,
and record the extracted project and broker in the constructor (the Go
method mutates its receiver; the model returns the updated value). -/
def validateServer (flags : BrokerURLConstructor) :
    Except BrokerURLError BrokerURLConstructor :=
  if ¬ goHasPre flags.Server flags.Host then
    Except.error BrokerURLError.serverNotBeginWithHost
  else if (flags.Server.splitOn slash).length < 8 ∨
      (flags.Server.splitOn slash).getD ((flags.Server.splitOn slash).length - 2) []
        ≠ brokersKey ∨
      (flags.Server.splitOn slash).getD ((flags.Server.splitOn slash).length - 4) []
        ≠ projectsKey ∨
      (flags.Server.splitOn slash).getD ((flags.Server.splitOn slash).length - 5) []
        ≠ betaKey then
    Except.error BrokerURLError.invalidServerURL
  else
    Except.ok { flags with
      Broker := (flags.Server.splitOn slash).getD ((flags.Server.splitOn slash).length - 1) []
      Project := (flags.Server.splitOn slash).getD ((flags.Server.splitOn slash).length - 3) [] }

/-- BrokerURL (brokerurl.go): resolve the broker URL from either the
explicit `--server` value or the `--project`/`--broker` pair, rejecting
both-and-neither combinations.  Returns the URL together with the
(possibly updated) constructor. -/
def BrokerURL (flags : BrokerURLConstructor) :
    Except BrokerURLError (GoStr × BrokerURLConstructor) :=
  if flags.Server = [] ∧ (flags.Project = [] ∨ flags.Broker = []) then
    Except.error BrokerURLError.mustSpecifyOne
  else if flags.Server ≠ [] ∧ flags.Project ≠ [] ∧ flags.Broker ≠ [] then
    Except.error BrokerURLError.mustNotSpecifyBoth
  else if flags.Server ≠ [] then
    match validateServer flags with
    | Except.error e => Except.error e
    | Except.ok flags2 => Except.ok (flags2.Server, flags2)
  else
    Except.ok (ConstructBrokerURL flags.Host flags.Project flags.Broker, flags)

/-! ## Broker cleanup orchestration (broker-cli/cmd, cleanupBroker) -/

/-- The per-instance record used by the cleanup code (`instance` in the
cmd package).  The struct declaration itself is not among the provided
sources; its fields (ID, serviceID, planID, bindings) are reconstructed
from every use in cleanupBroker and deleteBinding. -/
structure CleanupInstance where
  ID : String
  serviceID : String
  planID : String
  bindings : List String
deriving DecidableEq, Repr

/-- The adapter interface as seen by the cleanup code, modelled as response
functions: what DeleteBinding / DeleteInstance return for a given resource,
and what the k-th last-operation poll for a resource returns. -/
structure ClientModel where
  deleteBindingRes : String → String → Except String DeleteBindingResult
  bindingLastOpRes : String → String → Nat → Except String Operation
  deleteInstanceRes : String → Except String DeleteInstanceResult
  instanceLastOpRes : String → Nat → Except String Operation

/-- The observable adapter calls the cleanup code issues, in order. -/
inductive CleanupEvent where
  | bindDel (instanceID bindingID : String)
  | bindPoll (instanceID bindingID : String)
  | instDel (instanceID : String)
  | instPoll (instanceID : String)
deriving DecidableEq, Repr

/-- The instance a cleanup event belongs to. -/
def CleanupEvent.instID : CleanupEvent → String
  | CleanupEvent.bindDel i _ => i
  | CleanupEvent.bindPoll i _ => i
  | CleanupEvent.instDel i => i
  | CleanupEvent.instPoll i => i

/-- Whether the event is a DeleteBinding call. -/
def CleanupEvent.isBindDel : CleanupEvent → Bool
  | CleanupEvent.bindDel _ _ => true
  | _ => false

/-- Whether the event is a DeleteInstance call. -/
def CleanupEvent.isInstDel : CleanupEvent → Bool
  | CleanupEvent.instDel _ => true
  | _ => false

/-- deleteBinding (broker-cli/cmd): delete one binding and poll its delete
operation to a terminal state with waitOnOperation; an error at any step,
or a terminal state other than succeeded, is reported as an error.
Returns the adapter calls issued and the error, or `none` when the poll
loop runs out of fuel. -/
def deleteBindingRun (c : ClientModel) (fuel : Nat) (i : CleanupInstance)
    (b : String) : Option (List CleanupEvent × Option String) :=
  match c.deleteBindingRes i.ID b with
  | Except.error e => some ([CleanupEvent.bindDel i.ID b], some e)
  | Except.ok _res =>
    match waitOnOperation (fun k => c.bindingLastOpRes i.ID b k) fuel with
    | none => none
    | some (Except.error e, n, _) =>
      some (CleanupEvent.bindDel i.ID b :: List.replicate n (CleanupEvent.bindPoll i.ID b),
        some ("Error polling last operation for binding: " ++ e))
    | some (Except.ok op, n, _) =>
      some (CleanupEvent.bindDel i.ID b :: List.replicate n (CleanupEvent.bindPoll i.ID b),
        if op.State = OperationSucceeded then none
        else some "Failed to delete binding")

/-- deleteInstance (broker-cli/cmd): delete one instance and poll its
delete operation to a terminal state with waitOnOperation. -/
def deleteInstanceRun (c : ClientModel) (fuel : Nat) (i : CleanupInstance) :
    Option (List CleanupEvent × Option String) :=
  match c.deleteInstanceRes i.ID with
  | Except.error e => some ([CleanupEvent.instDel i.ID], some e)
  | Except.ok _res =>
    match waitOnOperation (fun k => c.instanceLastOpRes i.ID k) fuel with
    | none => none
    | some (Except.error e, n, _) =>
      some (CleanupEvent.instDel i.ID :: List.replicate n (CleanupEvent.instPoll i.ID),
        some ("Error polling last operation for instance: " ++ e))
    | some (Except.ok op, n, _) =>
      some (CleanupEvent.instDel i.ID :: List.replicate n (CleanupEvent.instPoll i.ID),
        if op.State = OperationSucceeded then none
        else some "Failed to delete instance")

/-- The inner loop of cleanupBroker over the bindings of one instance:
delete each binding in order, stopping at the first error (`break`). -/
def cleanupBindings (c : ClientModel) (fuel : Nat) (i : CleanupInstance) :
    List String → Option (List CleanupEvent × Option String)
  | [] => some ([], none)
  | b :: bs =>
    match deleteBindingRun c fuel i b with
    | none => none
    | some (ev, some e) => some (ev, some e)
    | some (ev, none) =>
      match cleanupBindings c fuel i bs with
      | none => none
      | some (ev2, r) => some (ev ++ ev2, r)

/-- Insertion into the Go map `errorMap` (keyed by instance ID,
overwriting). -/
def mapInsert (m : List (String × String)) (k v : String) :
    List (String × String) :=
  (k, v) :: m.filter (fun p => p.1 ≠ k)

/-- One iteration of cleanupBroker's outer loop: delete the bindings of
instance `i` (recording the first error, if any, in the error map), then
delete the instance itself unless an error is already recorded for its
ID. -/
def cleanupInstanceStep (c : ClientModel) (fuel : Nat)
    (st : List CleanupEvent × List (String × String)) (i : CleanupInstance) :
    Option (List CleanupEvent × List (String × String)) :=
  match cleanupBindings c fuel i i.bindings with
  | none => none
  | some (ev, some e) => some (st.1 ++ ev, mapInsert st.2 i.ID e)
  | some (ev, none) =>
    if (st.2.lookup i.ID).isSome then
      some (st.1 ++ ev, st.2)
    else
      match deleteInstanceRun c fuel i with
      | none => none
      | some (ev2, some e) => some (st.1 ++ ev ++ ev2, mapInsert st.2 i.ID e)
      | some (ev2, none) => some (st.1 ++ ev ++ ev2, st.2)

/-- The outer loop of cleanupBroker over all instances, threading the
event trace and the error map. -/
def cleanupRun (c : ClientModel) (fuel : Nat) :
    List CleanupInstance → (List CleanupEvent × List (String × String)) →
    Option (List CleanupEvent × List (String × String))
  | [], st => some st
  | i :: is, st =>
    match cleanupInstanceStep c fuel st i with
    | none => none
    | some st2 => cleanupRun c fuel is st2

/-- cleanupBroker's deletion phase (broker-cli/cmd): given the listed
instances with their bindings, delete every binding of every instance and
then the instance itself, accumulating per-instance errors rather than
aborting; cleanupBroker finally fails iff the error map is non-empty. -/
def cleanupBroker (c : ClientModel) (fuel : Nat)
    (instances : List CleanupInstance) :
    Option (List CleanupEvent × List (String × String)) :=
  cleanupRun c fuel instances ([], [])

/-! ## Lemmas about the poller -/

theorem iterDelay_succ (j : Nat) : ∀ d, iterDelay d (j + 1) = nextDelay (iterDelay d j) := by
  induction j with
  | zero => intro d; rfl
  | succ j ih =>
    intro d
    show iterDelay (nextDelay d) (j + 1) = nextDelay (iterDelay (nextDelay d) j)
    exact ih (nextDelay d)

theorem nextDelay_le_max {d : Nat} (h : d ≤ maxDelay) : nextDelay d ≤ maxDelay := by
  unfold nextDelay
  split
  · exact min_le_left _ _
  · exact h

theorem le_nextDelay {d : Nat} (h : d ≤ maxDelay) : d ≤ nextDelay d := by
  unfold nextDelay
  split
  · exact le_min (by omega) (by omega)
  · exact le_rfl

theorem nextDelay_eq_min {d : Nat} (h : d ≤ maxDelay) :
    nextDelay d = min maxDelay (2 * d) := by
  unfold nextDelay
  split
  · rfl
  · have : d = maxDelay := by omega
    subst this
    omega

theorem delaySeq_le_max (j : Nat) : delaySeq j ≤ maxDelay := by
  induction j with
  | zero => decide
  | succ j ih =>
    show iterDelay baseDelay (j + 1) ≤ maxDelay
    rw [iterDelay_succ]
    exact nextDelay_le_max ih

theorem delaySeq_succ (j : Nat) : delaySeq (j + 1) = min maxDelay (2 * delaySeq j) := by
  show iterDelay baseDelay (j + 1) = _
  rw [iterDelay_succ]
  exact nextDelay_eq_min (delaySeq_le_max j)

theorem delaySeq_mono : Monotone delaySeq := by
  apply monotone_nat_of_le_succ
  intro j
  show delaySeq j ≤ iterDelay baseDelay (j + 1)
  rw [iterDelay_succ]
  exact le_nextDelay (delaySeq_le_max j)

theorem waitLoop_sleeps (poll : Nat → Except String Operation) :
    ∀ fuel j d acc r n sleeps,
      waitLoop poll fuel j d acc = some (r, n, sleeps) →
      ∃ m, 0 < m ∧ sleeps = acc ++ (List.range m).map (iterDelay d) := by
  intro fuel
  induction fuel with
  | zero =>
    intro j d acc r n sleeps h
    simp [waitLoop] at h
  | succ fuel ih =>
    intro j d acc r n sleeps h
    cases hp : poll j with
    | error e =>
      simp only [waitLoop, hp, Option.some.injEq, Prod.mk.injEq] at h
      refine ⟨1, one_pos, ?_⟩
      rw [← h.2.2]
      rfl
    | ok op =>
      simp only [waitLoop, hp] at h
      by_cases hs : op.State = OperationInProgress
      · rw [if_pos hs] at h
        obtain ⟨m, hm, hsl⟩ := ih (j + 1) (nextDelay d) (acc ++ [d]) r n sleeps h
        refine ⟨m + 1, by omega, ?_⟩
        rw [hsl, List.range_succ_eq_map]
        simp [List.map_map, Function.comp_def, iterDelay]
      · rw [if_neg hs] at h
        simp only [Option.some.injEq, Prod.mk.injEq] at h
        refine ⟨1, one_pos, ?_⟩
        rw [← h.2.2]
        rfl

theorem waitLoop_reaches (poll : Nat → Except String Operation) (N : Nat) (opN : Operation)
    (hterm : poll N = Except.ok opN) (hstate : ¬ opN.State = OperationInProgress) :
    ∀ fuel j delay sleeps,
      (∀ i, j ≤ i → i < N → ∃ op, poll i = Except.ok op ∧ op.State = OperationInProgress) →
      j ≤ N → N - j < fuel →
      ∃ sl, waitLoop poll fuel j delay sleeps = some (Except.ok opN, N + 1, sl) := by
  intro fuel
  induction fuel with
  | zero => intro j delay sleeps _ _ h; omega
  | succ fuel ih =>
    intro j delay sleeps hprog hj hfuel
    by_cases hjN : j = N
    · subst hjN
      refine ⟨sleeps ++ [delay], ?_⟩
      simp only [waitLoop, hterm]
      rw [if_neg hstate]
    · have hlt : j < N := lt_of_le_of_ne hj hjN
      obtain ⟨op, hop, hst⟩ := hprog j le_rfl hlt
      obtain ⟨sl, hsl⟩ := ih (j + 1) (nextDelay delay) (sleeps ++ [delay])
        (fun i h1 h2 => hprog i (by omega) h2) (by omega) (by omega)
      refine ⟨sl, ?_⟩
      simp only [waitLoop, hop]
      rw [if_pos hst]
      exact hsl

theorem getD_map_range {f : Nat → Nat} {m j : Nat} (h : j < m) :
    (((List.range m).map f).getD j 0) = f j := by
  rw [List.getD_eq_getElem?_getD, List.getElem?_map, List.getElem?_range h]
  rfl

/-- C1: for every poll function, if the first N calls report `in progress`
and call N+1 reports `succeeded`, waitOnOperation makes exactly N+1 calls
and returns that terminal Operation without error (for any sufficient
fuel); and a poll function failing on its first call makes waitOnOperation
return that error after exactly one call. -/
theorem waitOnOperation_call_count :
    (∀ (poll : Nat → Except String Operation) (N : Nat) (opN : Operation),
      (∀ i, i < N → ∃ op, poll i = Except.ok op ∧ op.State = OperationInProgress) →
      poll N = Except.ok opN → opN.State = OperationSucceeded →
      ∀ fuel, N + 1 ≤ fuel →
        ∃ sl, waitOnOperation poll fuel = some (Except.ok opN, N + 1, sl)) ∧
    (∀ (poll : Nat → Except String Operation) (e : String),
      poll 0 = Except.error e →
      ∀ fuel, 0 < fuel →
        waitOnOperation poll fuel = some (Except.error e, 1, [baseDelay])) := by
  constructor
  · intro poll N opN hprog hterm hsucc fuel hfuel
    have hstate : ¬ opN.State = OperationInProgress := by
      rw [hsucc]; decide
    exact waitLoop_reaches poll N opN hterm hstate fuel 0 baseDelay []
      (fun i _ h2 => hprog i h2) (Nat.zero_le N) (by omega)
  · intro poll e he fuel hfuel
    obtain ⟨f, rfl⟩ : ∃ f, fuel = f + 1 := ⟨fuel - 1, by omega⟩
    simp [waitOnOperation, waitLoop, he]

theorem waitOnOperation_call_count_witness :
    (∃ sl, waitOnOperation (fun i => if i < 2 then Except.ok ⟨OperationInProgress, ""⟩
        else Except.ok ⟨OperationSucceeded, "d"⟩) 5 =
      some (Except.ok ⟨OperationSucceeded, "d"⟩, 3, sl)) ∧
    waitOnOperation (fun _ => Except.error "boom") 4 =
      some (Except.error "boom", 1, [baseDelay]) :=
  ⟨waitOnOperation_call_count.1 _ 2 ⟨OperationSucceeded, "d"⟩
      (fun i hi => ⟨⟨OperationInProgress, ""⟩, by simp [hi], rfl⟩)
      rfl rfl 5 (by omega),
    waitOnOperation_call_count.2 _ "boom" rfl 4 (by omega)⟩

/-- C6: in every execution of waitOnOperation, the sequence of sleep
delays starts at 100ms, each subsequent delay equals min(6s, twice the
previous delay), the sequence is non-decreasing, and no delay exceeds 6
seconds (milliseconds throughout). -/
theorem waitOnOperation_backoff (poll : Nat → Except String Operation) (fuel : Nat)
    (r : Except String Operation) (n : Nat) (sleeps : List Nat)
    (h : waitOnOperation poll fuel = some (r, n, sleeps)) :
    sleeps.head? = some 100 ∧
    (∀ j, j + 1 < sleeps.length → sleeps.getD (j + 1) 0 = min 6000 (2 * sleeps.getD j 0)) ∧
    (∀ j k, j ≤ k → k < sleeps.length → sleeps.getD j 0 ≤ sleeps.getD k 0) ∧
    (∀ d ∈ sleeps, d ≤ 6000) := by
  obtain ⟨m, hm, hsl⟩ := waitLoop_sleeps poll fuel 0 baseDelay [] r n sleeps h
  rw [List.nil_append] at hsl
  have hds : iterDelay baseDelay = delaySeq := rfl
  rw [hds] at hsl
  subst hsl
  have hlen : ((List.range m).map delaySeq).length = m := by simp
  refine ⟨?_, ?_, ?_, ?_⟩
  · obtain ⟨m0, rfl⟩ : ∃ m0, m = m0 + 1 := ⟨m - 1, by omega⟩
    rw [List.range_succ_eq_map]
    rfl
  · intro j hj
    rw [hlen] at hj
    rw [getD_map_range (by omega : j < m), getD_map_range hj]
    exact delaySeq_succ j
  · intro j k hjk hk
    rw [hlen] at hk
    rw [getD_map_range (by omega : j < m), getD_map_range hk]
    exact delaySeq_mono hjk
  · intro d hd
    obtain ⟨j, _, rfl⟩ := List.mem_map.mp hd
    exact delaySeq_le_max j

theorem waitOnOperation_backoff_witness :
    waitOnOperation (fun i => if i < 3 then Except.ok ⟨OperationInProgress, ""⟩
        else Except.ok ⟨OperationSucceeded, ""⟩) 9 =
      some (Except.ok ⟨OperationSucceeded, ""⟩, 4, [100, 200, 400, 800]) ∧
    [100, 200, 400, 800].head? = some 100 :=
  ⟨rfl, (waitOnOperation_backoff
      (fun i => if i < 3 then Except.ok ⟨OperationInProgress, ""⟩
        else Except.ok ⟨OperationSucceeded, ""⟩) 9
      (Except.ok ⟨OperationSucceeded, ""⟩) 4 [100, 200, 400, 800] rfl).1⟩

/-! ## Adapter response interpretation -/

theorem lastOperation_410_aux (unmOp : Unmarshal OperationResponseBody)
    (unmGCP : Unmarshal GcpBrokerFailureResponseBody)
    (resource : String) (params : LastOperationParams) (respBody : String) :
    (params.OperationType = OperationType.Delete →
      lastOperation unmOp unmGCP resource params 410 respBody =
        Except.ok { State := OperationSucceeded
                    Description := "The " ++ resource ++ " doesn" ++ apos ++ "t exist." }) ∧
    (params.OperationType ≠ OperationType.Delete →
      isErr (lastOperation unmOp unmGCP resource params 410 respBody) = true) := by
  constructor
  · intro hd
    simp [lastOperation, hd]
  · intro hd
    simp [lastOperation, hd, isErr]

/-- C2: a 410 response to InstanceLastOperation or BindingLastOperation
yields a succeeded Operation when the OperationType is Delete, and an
error for every other OperationType, for any response body. -/
theorem lastOperation_410 (unmOp : Unmarshal OperationResponseBody)
    (unmGCP : Unmarshal GcpBrokerFailureResponseBody)
    (iparams : InstanceLastOperationParams) (bparams : BindingLastOperationParams)
    (respBody : String) :
    (iparams.lastOp.OperationType = OperationType.Delete →
      ∃ op, InstanceLastOperation unmOp unmGCP iparams 410 respBody = Except.ok op ∧
        op.State = OperationSucceeded) ∧
    (iparams.lastOp.OperationType ≠ OperationType.Delete →
      isErr (InstanceLastOperation unmOp unmGCP iparams 410 respBody) = true) ∧
    (bparams.lastOp.OperationType = OperationType.Delete →
      ∃ op, BindingLastOperation unmOp unmGCP bparams 410 respBody = Except.ok op ∧
        op.State = OperationSucceeded) ∧
    (bparams.lastOp.OperationType ≠ OperationType.Delete →
      isErr (BindingLastOperation unmOp unmGCP bparams 410 respBody) = true) := by
  refine ⟨fun hd => ?_, fun hd => ?_, fun hd => ?_, fun hd => ?_⟩
  · exact ⟨_, (lastOperation_410_aux unmOp unmGCP instanceKey iparams.lastOp respBody).1 hd, rfl⟩
  · exact (lastOperation_410_aux unmOp unmGCP instanceKey iparams.lastOp respBody).2 hd
  · exact ⟨_, (lastOperation_410_aux unmOp unmGCP bindingKey bparams.lastOp respBody).1 hd, rfl⟩
  · exact (lastOperation_410_aux unmOp unmGCP bindingKey bparams.lastOp respBody).2 hd

theorem lastOperation_410_witness :
    (∃ op, InstanceLastOperation (fun _ => Except.error "x") (fun _ => Except.error "x")
        ⟨"srv", "inst", ⟨"2.13", "svc", "plan", "op", OperationType.Delete⟩⟩ 410 "gone" =
          Except.ok op ∧ op.State = OperationSucceeded) ∧
    isErr (BindingLastOperation (fun _ => Except.error "x") (fun _ => Except.error "x")
        ⟨"srv", "inst", "bind", ⟨"2.13", "svc", "plan", "op", OperationType.Create⟩⟩
        410 "gone") = true :=
  ⟨(lastOperation_410 (fun _ => Except.error "x") (fun _ => Except.error "x")
      ⟨"srv", "inst", ⟨"2.13", "svc", "plan", "op", OperationType.Delete⟩⟩
      ⟨"srv", "inst", "bind", ⟨"2.13", "svc", "plan", "op", OperationType.Delete⟩⟩
      "gone").1 rfl,
    (lastOperation_410 (fun _ => Except.error "x") (fun _ => Except.error "x")
      ⟨"srv", "inst", ⟨"2.13", "svc", "plan", "op", OperationType.Delete⟩⟩
      ⟨"srv", "inst", "bind", ⟨"2.13", "svc", "plan", "op", OperationType.Create⟩⟩
      "gone").2.2.2 (by decide)⟩

/-- C3: DeleteInstance and DeleteBinding treat both 200 and 410 as a
synchronous success (Async = false, no error, empty OperationID), for any
response body. -/
theorem delete_gone_is_success (unmDeprov : Unmarshal DeprovisionResponseBody)
    (unmUnbind : Unmarshal UnbindResponseBody)
    (unmGCP : Unmarshal GcpBrokerFailureResponseBody)
    (dip : DeleteInstanceParams) (dbp : DeleteBindingParams)
    (respCode : Nat) (respBody : String) (h : respCode = 200 ∨ respCode = 410) :
    DeleteInstance unmDeprov unmGCP dip respCode respBody =
      Except.ok { Async := false, OperationID := "" } ∧
    DeleteBinding unmUnbind unmGCP dbp respCode respBody =
      Except.ok { Async := false, OperationID := "" } := by
  rcases h with rfl | rfl
  · exact ⟨by simp [DeleteInstance], by simp [DeleteBinding]⟩
  · exact ⟨by simp [DeleteInstance], by simp [DeleteBinding]⟩

theorem delete_gone_is_success_witness :
    DeleteInstance (fun _ => Except.error "x") (fun _ => Except.error "x")
        ⟨"srv", "2.13", false, "inst", "svc", "plan"⟩ 410 "gone" =
      Except.ok { Async := false, OperationID := "" } :=
  (delete_gone_is_success (fun _ => Except.error "x") (fun _ => Except.error "x")
    (fun _ => Except.error "x")
    ⟨"srv", "2.13", false, "inst", "svc", "plan"⟩
    ⟨"srv", "2.13", false, "inst", "bind", "svc", "plan"⟩
    410 "gone" (Or.inr rfl)).1

/-- C4: for each async-eligible operation, a 202 response while
AcceptsIncomplete is false yields an error, for any response body. -/
theorem async202_needs_acceptsIncomplete
    (unmProv : Unmarshal ProvisionResponseBody)
    (unmUpd : Unmarshal UpdateInstanceResponseBody)
    (unmDeprov : Unmarshal DeprovisionResponseBody)
    (unmBind : Unmarshal BindResponseBody)
    (unmUnbind : Unmarshal UnbindResponseBody)
    (unmGCP : Unmarshal GcpBrokerFailureResponseBody)
    (cip : CreateInstanceParams) (uip : UpdateInstanceParams)
    (dip : DeleteInstanceParams) (cbp : CreateBindingParams)
    (dbp : DeleteBindingParams) (respBody : String)
    (h1 : cip.AcceptsIncomplete = false) (h2 : uip.AcceptsIncomplete = false)
    (h3 : dip.AcceptsIncomplete = false) (h4 : cbp.AcceptsIncomplete = false)
    (h5 : dbp.AcceptsIncomplete = false) :
    isErr (CreateInstance unmProv unmGCP cip 202 respBody) = true ∧
    isErr (UpdateInstance unmUpd unmGCP uip 202 respBody) = true ∧
    isErr (DeleteInstance unmDeprov unmGCP dip 202 respBody) = true ∧
    isErr (CreateBinding unmBind unmGCP cbp 202 respBody) = true ∧
    isErr (DeleteBinding unmUnbind unmGCP dbp 202 respBody) = true := by
  refine ⟨?_, ?_, ?_, ?_, ?_⟩
  · simp [CreateInstance, h1, isErr]
  · simp [UpdateInstance, h2, isErr]
  · simp [DeleteInstance, h3, isErr]
  · simp [CreateBinding, h4, isErr]
  · simp [DeleteBinding, h5, isErr]

theorem async202_needs_acceptsIncomplete_witness :
    isErr (CreateInstance (fun _ => Except.error "x") (fun _ => Except.error "x")
      ⟨"srv", "2.13", false, "inst", "svc", "plan", "", ""⟩ 202 "accepted") = true :=
  (async202_needs_acceptsIncomplete (fun _ => Except.error "x") (fun _ => Except.error "x")
    (fun _ => Except.error "x") (fun _ => Except.error "x") (fun _ => Except.error "x")
    (fun _ => Except.error "x")
    ⟨"srv", "2.13", false, "inst", "svc", "plan", "", ""⟩
    ⟨"srv", "2.13", false, "inst", "svc", "plan", "", "", "", ""⟩
    ⟨"srv", "2.13", false, "inst", "svc", "plan"⟩
    ⟨"srv", "2.13", false, "inst", "bind", "svc", "plan", ""⟩
    ⟨"srv", "2.13", false, "inst", "bind", "svc", "plan"⟩
    "accepted" rfl rfl rfl rfl rfl).1

/-- C10: validateGCPFailureResponse always returns a BrokerError carrying
the given status code and the full raw body, never a secondary error; the
parsed envelope value is never used — the description is the caller's
string on parse success and the fixed unmarshalling message on parse
failure, and the result depends on the parser only through success or
failure. -/
theorem validateGCPFailureResponse_spec
    (unmGCP : Unmarshal GcpBrokerFailureResponseBody)
    (body : String) (code : Nat) (desc : String) :
    (validateGCPFailureResponse unmGCP body code desc).StatusCode = code ∧
    (validateGCPFailureResponse unmGCP body code desc).ErrorBody = body ∧
    (∀ v, unmGCP body = Except.ok v →
      (validateGCPFailureResponse unmGCP body code desc).ErrorDescription = desc) ∧
    (∀ e, unmGCP body = Except.error e →
      (validateGCPFailureResponse unmGCP body code desc).ErrorDescription =
        "error unmarshalling failure response body") ∧
    (∀ unmGCP2 : Unmarshal GcpBrokerFailureResponseBody,
      isErr (unmGCP body) = isErr (unmGCP2 body) →
      validateGCPFailureResponse unmGCP body code desc =
        validateGCPFailureResponse unmGCP2 body code desc) := by
  refine ⟨?_, ?_, ?_, ?_, ?_⟩
  · unfold validateGCPFailureResponse
    cases unmGCP body <;> rfl
  · unfold validateGCPFailureResponse
    cases unmGCP body <;> rfl
  · intro v hv
    unfold validateGCPFailureResponse
    rw [hv]
  · intro e he
    unfold validateGCPFailureResponse
    rw [he]
  · intro unmGCP2 hg
    unfold validateGCPFailureResponse
    cases hu : unmGCP body with
    | error e =>
      rw [hu] at hg
      cases hu2 : unmGCP2 body with
      | error e2 => rfl
      | ok v2 => rw [hu2] at hg; simp [isErr] at hg
    | ok v =>
      rw [hu] at hg
      cases hu2 : unmGCP2 body with
      | error e2 => rw [hu2] at hg; simp [isErr] at hg
      | ok v2 => rfl

theorem validateGCPFailureResponse_spec_witness :
    BrokerError.StatusCode
      (validateGCPFailureResponse (fun _ => Except.error "bad json") "not-json" 502 "desc") =
        502 ∧
    BrokerError.ErrorDescription
      (validateGCPFailureResponse (fun _ => Except.error "bad json") "not-json" 502 "desc") =
        "error unmarshalling failure response body" :=
  ⟨(validateGCPFailureResponse_spec (fun _ => Except.error "bad json")
      "not-json" 502 "desc").1,
    (validateGCPFailureResponse_spec (fun _ => Except.error "bad json")
      "not-json" 502 "desc").2.2.2.1 "bad json" rfl⟩

/-- C5 as stated is false on the code: at status 200 with a well-formed
response body whose `operation` field is set, CreateInstance returns
OperationID `op-1`, not an empty one; and the undocumented 2xx status 204
yields an error, not a synchronous success. -/
theorem sync_2xx_empty_operation_counterexample :
    CreateInstance (fun _ => Except.ok { DashboardURL := "", Operation := "op-1" })
        (fun _ => Except.error "x")
        { Server := "srv", APIVersion := "2.13", AcceptsIncomplete := false,
          InstanceID := "inst", ServiceID := "svc", PlanID := "plan",
          OrganizationGUID := "", SpaceGUID := "" } 200
        "\x7b\x22operation\x22:\x22op-1\x22\x7d" =
      Except.ok { Async := false, DashboardURL := "", OperationID := "op-1" } ∧
    ("op-1" : String) ≠ "" ∧
    isErr (CreateInstance (fun _ => Except.ok { DashboardURL := "", Operation := "op-1" })
        (fun _ => Except.error "x")
        { Server := "srv", APIVersion := "2.13", AcceptsIncomplete := false,
          InstanceID := "inst", ServiceID := "svc", PlanID := "plan",
          OrganizationGUID := "", SpaceGUID := "" } 204 "") = true :=
  ⟨rfl, by decide, rfl⟩

/-- C5 (amended): for each operation, a status among that operation's
documented synchronous success codes (200 or 201 for the creates, 200 for
update, 200 for the deletes) yields Async = false with the OperationID
copied from the decoded response body for create/update (empty for the
deletes, whose bodies are ignored); any other 2xx status (such as 204)
yields an error. -/
theorem sync_2xx_results
    (unmProv : Unmarshal ProvisionResponseBody)
    (unmUpd : Unmarshal UpdateInstanceResponseBody)
    (unmDeprov : Unmarshal DeprovisionResponseBody)
    (unmBind : Unmarshal BindResponseBody)
    (unmUnbind : Unmarshal UnbindResponseBody)
    (unmGCP : Unmarshal GcpBrokerFailureResponseBody)
    (cip : CreateInstanceParams) (uip : UpdateInstanceParams)
    (dip : DeleteInstanceParams) (cbp : CreateBindingParams)
    (dbp : DeleteBindingParams) (respCode : Nat) (respBody : String) :
    (∀ rb, unmProv respBody = Except.ok rb → respCode = 200 ∨ respCode = 201 →
      CreateInstance unmProv unmGCP cip respCode respBody =
        Except.ok { Async := false, DashboardURL := rb.DashboardURL,
                    OperationID := rb.Operation }) ∧
    (∀ rb, unmUpd respBody = Except.ok rb → respCode = 200 →
      UpdateInstance unmUpd unmGCP uip respCode respBody =
        Except.ok { Async := false, OperationID := rb.Operation }) ∧
    (∀ rb, unmBind respBody = Except.ok rb → respCode = 200 ∨ respCode = 201 →
      CreateBinding unmBind unmGCP cbp respCode respBody =
        Except.ok { Async := false, Credentials := rb.Credentials,
                    SyslogDrainURL := rb.SyslogDrainURL,
                    RouteServiceURL := rb.RouteServiceURL,
                    VolumeMounts := rb.VolumeMounts,
                    OperationID := rb.Operation }) ∧
    (respCode = 200 →
      DeleteInstance unmDeprov unmGCP dip respCode respBody =
        Except.ok { Async := false, OperationID := "" } ∧
      DeleteBinding unmUnbind unmGCP dbp respCode respBody =
        Except.ok { Async := false, OperationID := "" }) ∧
    (200 ≤ respCode → respCode < 300 → respCode ≠ 200 → respCode ≠ 201 → respCode ≠ 202 →
      isErr (CreateInstance unmProv unmGCP cip respCode respBody) = true ∧
      isErr (CreateBinding unmBind unmGCP cbp respCode respBody) = true ∧
      isErr (DeleteInstance unmDeprov unmGCP dip respCode respBody) = true ∧
      isErr (DeleteBinding unmUnbind unmGCP dbp respCode respBody) = true) ∧
    (200 ≤ respCode → respCode < 300 → respCode ≠ 200 → respCode ≠ 202 →
      isErr (UpdateInstance unmUpd unmGCP uip respCode respBody) = true) := by
  refine ⟨?_, ?_, ?_, ?_, ?_, ?_⟩
  · intro rb hrb hc
    rcases hc with rfl | rfl <;> simp [CreateInstance, hrb]
  · intro rb hrb hc
    subst hc
    simp [UpdateInstance, hrb]
  · intro rb hrb hc
    rcases hc with rfl | rfl <;> simp [CreateBinding, hrb]
  · intro hc
    subst hc
    exact ⟨by simp [DeleteInstance], by simp [DeleteBinding]⟩
  · intro hge hlt h200 h201 h202
    have h400 : respCode ≠ 400 := by omega
    have h409 : respCode ≠ 409 := by omega
    have h410 : respCode ≠ 410 := by omega
    have h422 : respCode ≠ 422 := by omega
    refine ⟨?_, ?_, ?_, ?_⟩
    · simp [CreateInstance, h200, h201, h202, h400, h409, h422, isErr]
    · simp [CreateBinding, h200, h201, h202, h400, h409, h422, isErr]
    · simp [DeleteInstance, h200, h202, h400, h410, h422, isErr]
    · simp [DeleteBinding, h200, h202, h400, h410, h422, isErr]
  · intro hge hlt h200 h202
    have h400 : respCode ≠ 400 := by omega
    have h422 : respCode ≠ 422 := by omega
    simp [UpdateInstance, h200, h202, h400, h422, isErr]

theorem sync_2xx_results_witness :
    UpdateInstance (fun _ => Except.ok { Operation := "op-2" }) (fun _ => Except.error "x")
        { Server := "srv", APIVersion := "2.13", AcceptsIncomplete := false,
          InstanceID := "inst", ServiceID := "svc", PlanID := "plan",
          PreviousServiceID := "", PreviousPlanID := "",
          PreviousOrganizationID := "", PreviousSpaceID := "" } 200 "body" =
      Except.ok { Async := false, OperationID := "op-2" } :=
  (sync_2xx_results (fun _ => Except.error "x")
    (fun _ => Except.ok { Operation := "op-2" }) (fun _ => Except.error "x")
    (fun _ => Except.error "x") (fun _ => Except.error "x") (fun _ => Except.error "x")
    { Server := "srv", APIVersion := "2.13", AcceptsIncomplete := false,
      InstanceID := "inst", ServiceID := "svc", PlanID := "plan",
      OrganizationGUID := "", SpaceGUID := "" }
    { Server := "srv", APIVersion := "2.13", AcceptsIncomplete := false,
      InstanceID := "inst", ServiceID := "svc", PlanID := "plan",
      PreviousServiceID := "", PreviousPlanID := "",
      PreviousOrganizationID := "", PreviousSpaceID := "" }
    { Server := "srv", APIVersion := "2.13", AcceptsIncomplete := false,
      InstanceID := "inst", ServiceID := "svc", PlanID := "plan" }
    { Server := "srv", APIVersion := "2.13", AcceptsIncomplete := false,
      InstanceID := "inst", BindingID := "bind", ServiceID := "svc", PlanID := "plan",
      AppGUID := "" }
    { Server := "srv", APIVersion := "2.13", AcceptsIncomplete := false,
      InstanceID := "inst", BindingID := "bind", ServiceID := "svc", PlanID := "plan" }
    200 "body").2.1 { Operation := "op-2" } rfl rfl


/-! ## Lemmas about the Go string helpers -/

theorem goHasPre_append (pre rest : GoStr) : goHasPre (pre ++ rest) pre = true := by
  induction pre with
  | nil => cases rest <;> rfl
  | cons c s ih => simp [goHasPre, ih]

theorem splitOnP_append_cons {α : Type} (p : α → Bool) (c : α) (hc : p c = true) (ys : List α) :
    ∀ xs, (xs ++ c :: ys).splitOnP p = xs.splitOnP p ++ ys.splitOnP p := by
  intro xs
  induction xs with
  | nil => simp [List.splitOnP_cons, hc]
  | cons a xs ih =>
    rw [List.cons_append, List.splitOnP_cons, List.splitOnP_cons, ih]
    by_cases ha : p a = true
    · simp [ha]
    · rw [if_neg (by simp [ha]), if_neg (by simp [ha])]
      cases h : xs.splitOnP p with
      | nil => exact absurd h (List.splitOnP_ne_nil p xs)
      | cons hd tl => simp [h]

theorem splitOn_append_cons (c : Char) (ys xs : GoStr) :
    (xs ++ c :: ys).splitOn c = xs.splitOn c ++ ys.splitOn c :=
  splitOnP_append_cons (· == c) c (beq_self_eq_true c) ys xs

theorem splitOn_ne_nil (c : Char) (s : GoStr) : s.splitOn c ≠ [] :=
  List.splitOnP_ne_nil _ s

theorem splitOn_single {c : Char} {s : GoStr} (h : c ∉ s) : s.splitOn c = [s] := by
  apply List.splitOnP_eq_single
  intro x hx
  simp only [beq_iff_eq]
  intro e
  subst e
  exact h hx

theorem sep_not_mem_of_mem_splitOnP {α : Type} (p : α → Bool) :
    ∀ (s part : List α), part ∈ s.splitOnP p → ∀ x ∈ part, ¬ p x = true := by
  intro s
  induction s with
  | nil =>
    intro part hp
    rw [List.splitOnP_nil] at hp
    simp only [List.mem_singleton] at hp
    subst hp
    intro x hx
    simp at hx
  | cons a s ih =>
    intro part hp
    rw [List.splitOnP_cons] at hp
    by_cases ha : p a = true
    · rw [if_pos (by simp [ha])] at hp
      rcases List.mem_cons.mp hp with rfl | hp2
      · intro x hx; simp at hx
      · exact ih part hp2
    · rw [if_neg (by simp [ha])] at hp
      cases h : s.splitOnP p with
      | nil => exact absurd h (List.splitOnP_ne_nil p s)
      | cons hd tl =>
        rw [h] at hp
        simp only [List.modifyHead] at hp
        rcases List.mem_cons.mp hp with rfl | hp2
        · intro x hx
          rcases List.mem_cons.mp hx with rfl | hx2
          · exact ha
          · exact ih hd (by rw [h]; exact List.mem_cons_self hd tl) x hx2
        · exact ih part (by rw [h]; exact List.mem_cons.mpr (Or.inr hp2))

theorem slash_not_mem_of_mem_splitOn {s part : GoStr} (h : part ∈ s.splitOn slash) :
    slash ∉ part := by
  intro hm
  exact sep_not_mem_of_mem_splitOnP (· == slash) s part h slash hm (beq_self_eq_true slash)

theorem intercalate_cons_of_ne_nil {c : Char} {a : GoStr} {B : List GoStr} (h : B ≠ []) :
    [c].intercalate (a :: B) = a ++ c :: [c].intercalate B := by
  cases B with
  | nil => exact absurd rfl h
  | cons b t => simp [List.intercalate, List.intersperse_cons_cons]

theorem intercalate_append_cons (c : Char) :
    ∀ (A B : List GoStr), A ≠ [] → B ≠ [] →
      [c].intercalate (A ++ B) = [c].intercalate A ++ c :: [c].intercalate B := by
  intro A
  induction A with
  | nil => intro B h _; exact absurd rfl h
  | cons a A ih =>
    intro B _ hB
    cases A with
    | nil =>
      rw [List.singleton_append, intercalate_cons_of_ne_nil hB]
      simp [List.intercalate]
    | cons a2 A2 =>
      rw [List.cons_append,
        intercalate_cons_of_ne_nil (by simp : (a2 :: A2) ++ B ≠ []),
        intercalate_cons_of_ne_nil (by simp : a2 :: A2 ≠ []),
        ih B (by simp) hB]
      simp

theorem shape_append (h p b : GoStr) : ConstructBrokerURL h p b =
    h ++ slash :: (betaKey ++ slash :: (projectsKey ++ slash ::
      (p ++ slash :: (brokersKey ++ slash :: b)))) := by
  simp [ConstructBrokerURL, gs, slash, betaKey, projectsKey, brokersKey]

theorem splitOn_constructURL (h p b : GoStr) (hp : slash ∉ p) (hb : slash ∉ b) :
    (ConstructBrokerURL h p b).splitOn slash =
      h.splitOn slash ++ [betaKey, projectsKey, p, brokersKey, b] := by
  rw [shape_append, splitOn_append_cons, splitOn_append_cons, splitOn_append_cons,
    splitOn_append_cons, splitOn_append_cons,
    splitOn_single (show slash ∉ betaKey by decide),
    splitOn_single (show slash ∉ projectsKey by decide),
    splitOn_single hp,
    splitOn_single (show slash ∉ brokersKey by decide),
    splitOn_single hb]
  simp

theorem exists_five {α : Type} (l : List α) (h : l.length = 5) :
    ∃ a b c d e, l = [a, b, c, d, e] := by
  rcases l with _ | ⟨a, l⟩
  · simp at h
  rcases l with _ | ⟨b, l⟩
  · simp at h
  rcases l with _ | ⟨c, l⟩
  · simp at h
  rcases l with _ | ⟨d, l⟩
  · simp at h
  rcases l with _ | ⟨e, l⟩
  · simp at h
  rcases l with _ | ⟨f, l⟩
  · exact ⟨a, b, c, d, e, rfl⟩
  · simp at h

theorem getD_append_five {α : Type} (A : List α) (x0 x1 x2 x3 x4 : α) (d : α) :
    ((A ++ [x0, x1, x2, x3, x4]).getD ((A ++ [x0, x1, x2, x3, x4]).length - 1) d = x4) ∧
    ((A ++ [x0, x1, x2, x3, x4]).getD ((A ++ [x0, x1, x2, x3, x4]).length - 2) d = x3) ∧
    ((A ++ [x0, x1, x2, x3, x4]).getD ((A ++ [x0, x1, x2, x3, x4]).length - 3) d = x2) ∧
    ((A ++ [x0, x1, x2, x3, x4]).getD ((A ++ [x0, x1, x2, x3, x4]).length - 4) d = x1) ∧
    ((A ++ [x0, x1, x2, x3, x4]).getD ((A ++ [x0, x1, x2, x3, x4]).length - 5) d = x0) := by
  have hL : (A ++ [x0, x1, x2, x3, x4]).length = A.length + 5 := by simp
  refine ⟨?_, ?_, ?_, ?_, ?_⟩
  · rw [hL, List.getD_append_right _ _ _ _ (by omega),
      show A.length + 5 - 1 - A.length = 4 from by omega]
    rfl
  · rw [hL, List.getD_append_right _ _ _ _ (by omega),
      show A.length + 5 - 2 - A.length = 3 from by omega]
    rfl
  · rw [hL, List.getD_append_right _ _ _ _ (by omega),
      show A.length + 5 - 3 - A.length = 2 from by omega]
    rfl
  · rw [hL, List.getD_append_right _ _ _ _ (by omega),
      show A.length + 5 - 4 - A.length = 1 from by omega]
    rfl
  · rw [hL, List.getD_append_right _ _ _ _ (by omega),
      show A.length + 5 - 5 - A.length = 0 from by omega]
    rfl

theorem validateServer_accepts (flags : BrokerURLConstructor) (p b : GoStr)
    (hS : flags.Server = ConstructBrokerURL flags.Host p b)
    (hm : 3 ≤ (flags.Host.splitOn slash).length)
    (hp : slash ∉ p) (hb : slash ∉ b) :
    validateServer flags = Except.ok { flags with Project := p, Broker := b } := by
  have hpre : goHasPre flags.Server flags.Host = true := by
    rw [hS, shape_append]
    exact goHasPre_append _ _
  have hsplit : flags.Server.splitOn slash =
      flags.Host.splitOn slash ++ [betaKey, projectsKey, p, brokersKey, b] := by
    rw [hS]
    exact splitOn_constructURL _ _ _ hp hb
  have hfive := getD_append_five (flags.Host.splitOn slash) betaKey projectsKey p brokersKey b
    ([] : GoStr)
  have h1 : (flags.Server.splitOn slash).getD ((flags.Server.splitOn slash).length - 1) [] =
      b := by
    rw [hsplit]
    exact hfive.1
  have h2 : (flags.Server.splitOn slash).getD ((flags.Server.splitOn slash).length - 2) [] =
      brokersKey := by
    rw [hsplit]
    exact hfive.2.1
  have h3 : (flags.Server.splitOn slash).getD ((flags.Server.splitOn slash).length - 3) [] =
      p := by
    rw [hsplit]
    exact hfive.2.2.1
  have h4 : (flags.Server.splitOn slash).getD ((flags.Server.splitOn slash).length - 4) [] =
      projectsKey := by
    rw [hsplit]
    exact hfive.2.2.2.1
  have h5 : (flags.Server.splitOn slash).getD ((flags.Server.splitOn slash).length - 5) [] =
      betaKey := by
    rw [hsplit]
    exact hfive.2.2.2.2
  have hlen : (flags.Server.splitOn slash).length =
      (flags.Host.splitOn slash).length + 5 := by
    rw [hsplit]
    simp
  have hc1 : ¬ ¬ goHasPre flags.Server flags.Host = true := by simp [hpre]
  have hc2 : ¬ ((flags.Server.splitOn slash).length < 8 ∨
      (flags.Server.splitOn slash).getD ((flags.Server.splitOn slash).length - 2) []
        ≠ brokersKey ∨
      (flags.Server.splitOn slash).getD ((flags.Server.splitOn slash).length - 4) []
        ≠ projectsKey ∨
      (flags.Server.splitOn slash).getD ((flags.Server.splitOn slash).length - 5) []
        ≠ betaKey) := by
    push_neg
    exact ⟨by omega, h2, h4, h5⟩
  unfold validateServer
  rw [if_neg hc1, if_neg hc2, h1, h3]

theorem recon_of_parts (S : GoStr) (A : List GoStr) (x0 x1 x2 x3 x4 : GoStr)
    (hparts : S.splitOn slash = A ++ [x0, x1, x2, x3, x4]) (hA : A ≠ []) :
    S = [slash].intercalate A ++ slash ::
      (x0 ++ slash :: (x1 ++ slash :: (x2 ++ slash :: (x3 ++ slash :: x4)))) ∧
    ([slash].intercalate A).splitOn slash = A := by
  have hmemA : ∀ l ∈ A, slash ∉ l := fun l hl =>
    slash_not_mem_of_mem_splitOn (s := S)
      (by rw [hparts]; exact List.mem_append.mpr (Or.inl hl))
  have hfivejoin : [slash].intercalate [x0, x1, x2, x3, x4] =
      x0 ++ slash :: (x1 ++ slash :: (x2 ++ slash :: (x3 ++ slash :: x4))) := by
    rw [intercalate_cons_of_ne_nil (by simp), intercalate_cons_of_ne_nil (by simp),
      intercalate_cons_of_ne_nil (by simp), intercalate_cons_of_ne_nil (by simp)]
    simp [List.intercalate]
  constructor
  · conv_lhs => rw [← List.intercalate_splitOn S slash, hparts]
    rw [intercalate_append_cons slash A _ hA (List.cons_ne_nil _ _), hfivejoin]
  · exact List.splitOn_intercalate A slash hmemA hA

theorem validateServer_shape (flags flags2 : BrokerURLConstructor)
    (h : validateServer flags = Except.ok flags2) :
    goHasPre flags.Server flags.Host = true ∧
    flags2.Host = flags.Host ∧ flags2.Server = flags.Server ∧
    ∃ pre, flags.Server = ConstructBrokerURL pre flags2.Project flags2.Broker ∧
      3 ≤ (pre.splitOn slash).length ∧
      slash ∉ flags2.Project ∧ slash ∉ flags2.Broker := by
  unfold validateServer at h
  by_cases hc1 : ¬ goHasPre flags.Server flags.Host
  · rw [if_pos hc1] at h
    exact absurd h (by simp)
  · rw [if_neg hc1] at h
    by_cases hc2 : (flags.Server.splitOn slash).length < 8 ∨
        (flags.Server.splitOn slash).getD ((flags.Server.splitOn slash).length - 2) []
          ≠ brokersKey ∨
        (flags.Server.splitOn slash).getD ((flags.Server.splitOn slash).length - 4) []
          ≠ projectsKey ∨
        (flags.Server.splitOn slash).getD ((flags.Server.splitOn slash).length - 5) []
          ≠ betaKey
    · rw [if_pos hc2] at h
      exact absurd h (by simp)
    · rw [if_neg hc2] at h
      simp only [Except.ok.injEq] at h
      push_neg at hc2
      obtain ⟨hlen8, heq2, heq4, heq5⟩ := hc2
      simp only [not_not] at hc1
      obtain ⟨A, hAeq⟩ : ∃ A, A = (flags.Server.splitOn slash).take
          ((flags.Server.splitOn slash).length - 5) := ⟨_, rfl⟩
      have hdlen : ((flags.Server.splitOn slash).drop
          ((flags.Server.splitOn slash).length - 5)).length = 5 := by
        rw [List.length_drop]
        omega
      obtain ⟨x0, x1, x2, x3, x4, hfiveeq⟩ := exists_five _ hdlen
      have hparts : flags.Server.splitOn slash = A ++ [x0, x1, x2, x3, x4] := by
        rw [hAeq, ← hfiveeq]
        exact (List.take_append_drop _ _).symm
      have htlen : A.length = (flags.Server.splitOn slash).length - 5 := by
        rw [hAeq, List.length_take]
        omega
      have hfive := getD_append_five A x0 x1 x2 x3 x4 ([] : GoStr)
      rw [← hparts] at hfive
      have hx3 : x3 = brokersKey := by rw [← hfive.2.1]; exact heq2
      have hx1 : x1 = projectsKey := by rw [← hfive.2.2.2.1]; exact heq4
      have hx0 : x0 = betaKey := by rw [← hfive.2.2.2.2]; exact heq5
      have hproj : flags2.Project = x2 := by
        rw [← h]
        exact hfive.2.2.1
      have hbrok : flags2.Broker = x4 := by
        rw [← h]
        exact hfive.1
      have hmem2 : slash ∉ x2 := by
        apply slash_not_mem_of_mem_splitOn (s := flags.Server)
        rw [hparts]
        simp
      have hmem4 : slash ∉ x4 := by
        apply slash_not_mem_of_mem_splitOn (s := flags.Server)
        rw [hparts]
        simp
      have htake_ne : A ≠ [] := by
        intro he
        rw [he] at htlen
        simp at htlen
        omega
      obtain ⟨hrecon, hAsplit⟩ := recon_of_parts flags.Server A x0 x1 x2 x3 x4 hparts htake_ne
      refine ⟨hc1, by rw [← h], by rw [← h],
        [slash].intercalate A, ?_, ?_, ?_, ?_⟩
      · rw [shape_append, hproj, hbrok, ← hx0, ← hx1, ← hx3]
        exact hrecon
      · rw [hAsplit, htlen]
        omega
      · rw [hproj]
        exact hmem2
      · rw [hbrok]
        exact hmem4

theorem brokerURL_cases (flags : BrokerURLConstructor) :
    (flags.Server ≠ [] → flags.Project ≠ [] → flags.Broker ≠ [] →
      BrokerURL flags = Except.error BrokerURLError.mustNotSpecifyBoth) ∧
    (flags.Server = [] → (flags.Project = [] ∨ flags.Broker = []) →
      BrokerURL flags = Except.error BrokerURLError.mustSpecifyOne) ∧
    (flags.Server = [] → flags.Project ≠ [] → flags.Broker ≠ [] →
      BrokerURL flags =
        Except.ok (ConstructBrokerURL flags.Host flags.Project flags.Broker, flags)) ∧
    (∀ flags2, flags.Server ≠ [] →
      (flags.Project = [] ∨ flags.Broker = []) →
      validateServer flags = Except.ok flags2 →
      BrokerURL flags = Except.ok (flags.Server, flags2)) := by
  refine ⟨?_, ?_, ?_, ?_⟩
  · intro hS hP hB
    unfold BrokerURL
    rw [if_neg (by simp [hS]), if_pos ⟨hS, hP, hB⟩]
  · intro hS hPB
    unfold BrokerURL
    rw [if_pos ⟨hS, hPB⟩]
  · intro hS hP hB
    unfold BrokerURL
    rw [if_neg (by simp [hP, hB]), if_neg (by simp [hS]), if_neg (by simp [hS])]
  · intro flags2 hS hPB hval
    have hs2 : flags2.Server = flags.Server :=
      (validateServer_shape flags flags2 hval).2.2.1
    unfold BrokerURL
    rw [if_neg (by simp [hS]), if_neg (by rcases hPB with h | h <;> simp [h]),
      if_pos hS, hval]
    show Except.ok (flags2.Server, flags2) = Except.ok (flags.Server, flags2)
    rw [hs2]

theorem brokerURL_ok_server_mode (flags : BrokerURLConstructor) (url : GoStr)
    (flags2 : BrokerURLConstructor) (hS : flags.Server ≠ [])
    (h : BrokerURL flags = Except.ok (url, flags2)) :
    validateServer flags = Except.ok flags2 ∧ url = flags.Server := by
  unfold BrokerURL at h
  rw [if_neg (by simp [hS])] at h
  by_cases hPB : flags.Project ≠ [] ∧ flags.Broker ≠ []
  · rw [if_pos ⟨hS, hPB.1, hPB.2⟩] at h
    exact absurd h (by simp)
  · rw [if_neg (fun hx => hPB ⟨hx.2.1, hx.2.2⟩), if_pos hS] at h
    cases hv : validateServer flags with
    | error e =>
      rw [hv] at h
      exact absurd h (by simp)
    | ok f2 =>
      rw [hv] at h
      simp only [Except.ok.injEq, Prod.mk.injEq] at h
      obtain ⟨hurl, hfl⟩ := h
      subst hfl
      refine ⟨rfl, ?_⟩
      rw [← hurl]
      exact (validateServer_shape flags f2 hv).2.2.1

/-- C7: BrokerURL enforces mutual exclusivity of the two addressing modes:
supplying the server URL together with the (project, broker) pair is an
error, supplying neither a server URL nor a complete pair is an error, and
supplying exactly one valid mode succeeds. -/
theorem brokerURL_modes (flags : BrokerURLConstructor) :
    (flags.Server ≠ [] → flags.Project ≠ [] → flags.Broker ≠ [] →
      BrokerURL flags = Except.error BrokerURLError.mustNotSpecifyBoth) ∧
    (flags.Server = [] → (flags.Project = [] ∨ flags.Broker = []) →
      BrokerURL flags = Except.error BrokerURLError.mustSpecifyOne) ∧
    (flags.Server = [] → flags.Project ≠ [] → flags.Broker ≠ [] →
      BrokerURL flags =
        Except.ok (ConstructBrokerURL flags.Host flags.Project flags.Broker, flags)) ∧
    (∀ flags2, flags.Server ≠ [] →
      (flags.Project = [] ∨ flags.Broker = []) →
      validateServer flags = Except.ok flags2 →
      BrokerURL flags = Except.ok (flags.Server, flags2)) :=
  brokerURL_cases flags

theorem brokerURL_modes_witness :
    BrokerURL ⟨gs "b", gs "h", gs "p", gs "s"⟩ =
      Except.error BrokerURLError.mustNotSpecifyBoth ∧
    BrokerURL ⟨[], gs "h", [], []⟩ = Except.error BrokerURLError.mustSpecifyOne ∧
    BrokerURL ⟨gs "b", gs "h", gs "p", []⟩ =
      Except.ok (ConstructBrokerURL (gs "h") (gs "p") (gs "b"),
        ⟨gs "b", gs "h", gs "p", []⟩) ∧
    BrokerURL ⟨[], gs "https://ep", [], gs "https://ep/v1beta1/projects/p1/brokers/b1"⟩ =
      Except.ok (gs "https://ep/v1beta1/projects/p1/brokers/b1",
        ⟨gs "b1", gs "https://ep", gs "p1",
          gs "https://ep/v1beta1/projects/p1/brokers/b1"⟩) :=
  ⟨(brokerURL_modes ⟨gs "b", gs "h", gs "p", gs "s"⟩).1
      (by decide) (by decide) (by decide),
    (brokerURL_modes ⟨[], gs "h", [], []⟩).2.1 rfl (Or.inl rfl),
    (brokerURL_modes ⟨gs "b", gs "h", gs "p", []⟩).2.2.1
      rfl (by decide) (by decide),
    (brokerURL_modes ⟨[], gs "https://ep", [],
        gs "https://ep/v1beta1/projects/p1/brokers/b1"⟩).2.2.2
      ⟨gs "b1", gs "https://ep", gs "p1",
        gs "https://ep/v1beta1/projects/p1/brokers/b1"⟩
      (by decide) (Or.inl rfl) rfl⟩

/-- C8 fails as stated: with configured host `h`, the server URL
`h/v1beta1/projects/p/brokers/b` has exactly the documented path shape and
begins with the host, yet BrokerURL rejects it, because the URL splits
into only 6 slash-separated parts and validateServer requires at least 8
(hosts without a scheme prefix such as https:// are always rejected). -/
theorem brokerURL_server_shape_counterexample :
    gs "h/v1beta1/projects/p/brokers/b" =
      ConstructBrokerURL (gs "h") (gs "p") (gs "b") ∧
    goHasPre (gs "h/v1beta1/projects/p/brokers/b") (gs "h") = true ∧
    BrokerURL ⟨[], gs "h", [], gs "h/v1beta1/projects/p/brokers/b"⟩ =
      Except.error BrokerURLError.invalidServerURL :=
  ⟨rfl, rfl, rfl⟩

/-- C8 (amended): an explicit server URL of the form
`{pre}/v1beta1/projects/{project}/brokers/{broker}` in which the URL
begins with the configured host, `{project}` and `{broker}` are single
path segments (no slash), and `{pre}` itself has at least 3
slash-separated components (as any `https://host` endpoint does), makes
BrokerURL succeed, return the URL unchanged, and store `{project}` and
`{broker}` in the constructor; conversely every server URL that BrokerURL
accepts begins with the host and has exactly that shape, with the
extracted project and broker recorded. -/
theorem brokerURL_server_shape :
    (∀ (flags : BrokerURLConstructor) (p b : GoStr),
      flags.Server = ConstructBrokerURL flags.Host p b →
      3 ≤ (flags.Host.splitOn slash).length →
      slash ∉ p → slash ∉ b →
      (flags.Project = [] ∨ flags.Broker = []) →
      BrokerURL flags =
        Except.ok (flags.Server, { flags with Project := p, Broker := b })) ∧
    (∀ (flags flags2 : BrokerURLConstructor) (url : GoStr),
      flags.Server ≠ [] →
      BrokerURL flags = Except.ok (url, flags2) →
      url = flags.Server ∧ goHasPre flags.Server flags.Host = true ∧
      ∃ pre, flags.Server = ConstructBrokerURL pre flags2.Project flags2.Broker ∧
        3 ≤ (pre.splitOn slash).length ∧
        slash ∉ flags2.Project ∧ slash ∉ flags2.Broker) := by
  constructor
  · intro flags p b hS hm hp hb hPB
    have hval := validateServer_accepts flags p b hS hm hp hb
    have hSne : flags.Server ≠ [] := by
      rw [hS, shape_append]
      intro he
      rcases List.append_eq_nil.mp he with ⟨_, h2⟩
      exact absurd h2 (List.cons_ne_nil _ _)
    exact (brokerURL_cases flags).2.2.2 _ hSne hPB hval
  · intro flags flags2 url hS h
    obtain ⟨hval, hurl⟩ := brokerURL_ok_server_mode flags url flags2 hS h
    obtain ⟨hpre, _, _, hshape⟩ := validateServer_shape flags flags2 hval
    exact ⟨hurl, hpre, hshape⟩

theorem brokerURL_server_shape_witness :
    BrokerURL ⟨[], gs "https://ep.com", [],
        gs "https://ep.com/v1beta1/projects/pj/brokers/bk"⟩ =
      Except.ok (gs "https://ep.com/v1beta1/projects/pj/brokers/bk",
        ⟨gs "bk", gs "https://ep.com", gs "pj",
          gs "https://ep.com/v1beta1/projects/pj/brokers/bk"⟩) :=
  brokerURL_server_shape.1
    ⟨[], gs "https://ep.com", [], gs "https://ep.com/v1beta1/projects/pj/brokers/bk"⟩
    (gs "pj") (gs "bk") rfl (by decide) (by decide) (by decide) (Or.inl rfl)

/-! ## Lemmas about the cleanup orchestration -/

theorem deleteBindingRun_shape (c : ClientModel) (fuel : Nat) (i : CleanupInstance)
    (b : String) (ev : List CleanupEvent) (r : Option String)
    (h : deleteBindingRun c fuel i b = some (ev, r)) :
    ∃ n, ev = CleanupEvent.bindDel i.ID b ::
      List.replicate n (CleanupEvent.bindPoll i.ID b) := by
  unfold deleteBindingRun at h
  cases hd : c.deleteBindingRes i.ID b with
  | error e =>
    simp only [hd, Option.some.injEq, Prod.mk.injEq] at h
    exact ⟨0, h.1.symm⟩
  | ok res =>
    simp only [hd] at h
    cases hw : waitOnOperation (fun k => c.bindingLastOpRes i.ID b k) fuel with
    | none => simp only [hw] at h; exact absurd h (by simp)
    | some x =>
      obtain ⟨rr, n, sl⟩ := x
      simp only [hw] at h
      cases rr with
      | error e =>
        simp only [Option.some.injEq, Prod.mk.injEq] at h
        exact ⟨n, h.1.symm⟩
      | ok op =>
        simp only [Option.some.injEq, Prod.mk.injEq] at h
        exact ⟨n, h.1.symm⟩

theorem deleteBindingRun_props (c : ClientModel) (fuel : Nat) (i : CleanupInstance)
    (b : String) (ev : List CleanupEvent) (r : Option String)
    (h : deleteBindingRun c fuel i b = some (ev, r)) :
    (∀ e ∈ ev, e.instID = i.ID ∧ e.isInstDel = false) ∧
    ev.countP (fun e => e.isBindDel) = 1 := by
  obtain ⟨n, rfl⟩ := deleteBindingRun_shape c fuel i b ev r h
  constructor
  · intro e he
    rcases List.mem_cons.mp he with rfl | he2
    · exact ⟨rfl, rfl⟩
    · rw [List.eq_of_mem_replicate he2]
      exact ⟨rfl, rfl⟩
  · rw [List.countP_cons]
    have hz : (List.replicate n (CleanupEvent.bindPoll i.ID b)).countP
        (fun e => e.isBindDel) = 0 := by
      rw [List.countP_eq_zero]
      intro a ha
      rw [List.eq_of_mem_replicate ha]
      simp [CleanupEvent.isBindDel]
    rw [hz]
    rfl

theorem deleteInstanceRun_shape (c : ClientModel) (fuel : Nat) (i : CleanupInstance)
    (ev : List CleanupEvent) (r : Option String)
    (h : deleteInstanceRun c fuel i = some (ev, r)) :
    ∃ n, ev = CleanupEvent.instDel i.ID ::
      List.replicate n (CleanupEvent.instPoll i.ID) := by
  unfold deleteInstanceRun at h
  cases hd : c.deleteInstanceRes i.ID with
  | error e =>
    simp only [hd, Option.some.injEq, Prod.mk.injEq] at h
    exact ⟨0, h.1.symm⟩
  | ok res =>
    simp only [hd] at h
    cases hw : waitOnOperation (fun k => c.instanceLastOpRes i.ID k) fuel with
    | none => simp only [hw] at h; exact absurd h (by simp)
    | some x =>
      obtain ⟨rr, n, sl⟩ := x
      simp only [hw] at h
      cases rr with
      | error e =>
        simp only [Option.some.injEq, Prod.mk.injEq] at h
        exact ⟨n, h.1.symm⟩
      | ok op =>
        simp only [Option.some.injEq, Prod.mk.injEq] at h
        exact ⟨n, h.1.symm⟩

theorem deleteInstanceRun_props (c : ClientModel) (fuel : Nat) (i : CleanupInstance)
    (ev : List CleanupEvent) (r : Option String)
    (h : deleteInstanceRun c fuel i = some (ev, r)) :
    (∀ e ∈ ev, e.instID = i.ID ∧ e.isBindDel = false) ∧
    ev.countP (fun e => e.isInstDel) = 1 := by
  obtain ⟨n, rfl⟩ := deleteInstanceRun_shape c fuel i ev r h
  constructor
  · intro e he
    rcases List.mem_cons.mp he with rfl | he2
    · exact ⟨rfl, rfl⟩
    · rw [List.eq_of_mem_replicate he2]
      exact ⟨rfl, rfl⟩
  · rw [List.countP_cons]
    have hz : (List.replicate n (CleanupEvent.instPoll i.ID)).countP
        (fun e => e.isInstDel) = 0 := by
      rw [List.countP_eq_zero]
      intro a ha
      rw [List.eq_of_mem_replicate ha]
      simp [CleanupEvent.isInstDel]
    rw [hz]
    rfl

theorem cleanupBindings_events (c : ClientModel) (fuel : Nat) (i : CleanupInstance) :
    ∀ (bs : List String) (ev : List CleanupEvent) (r : Option String),
      cleanupBindings c fuel i bs = some (ev, r) →
      ∀ e ∈ ev, e.instID = i.ID ∧ e.isInstDel = false := by
  intro bs
  induction bs with
  | nil =>
    intro ev r h e he
    simp only [cleanupBindings, Option.some.injEq, Prod.mk.injEq] at h
    rw [← h.1] at he
    simp at he
  | cons b bs ih =>
    intro ev r h e he
    simp only [cleanupBindings] at h
    cases hd : deleteBindingRun c fuel i b with
    | none => simp only [hd] at h; exact absurd h (by simp)
    | some pr =>
      obtain ⟨ev1, r1⟩ := pr
      simp only [hd] at h
      cases r1 with
      | some e1 =>
        simp only [Option.some.injEq, Prod.mk.injEq] at h
        rw [← h.1] at he
        exact (deleteBindingRun_props c fuel i b ev1 (some e1) hd).1 e he
      | none =>
        cases hrec : cleanupBindings c fuel i bs with
        | none => simp only [hrec] at h; exact absurd h (by simp)
        | some pr2 =>
          obtain ⟨ev2, r2⟩ := pr2
          simp only [hrec, Option.some.injEq, Prod.mk.injEq] at h
          rw [← h.1] at he
          rcases List.mem_append.mp he with h1 | h2
          · exact (deleteBindingRun_props c fuel i b ev1 none hd).1 e h1
          · exact ih ev2 r2 hrec e h2

theorem cleanupBindings_success (c : ClientModel) (fuel : Nat) (i : CleanupInstance) :
    ∀ (bs : List String),
      (∀ b ∈ bs, ∃ ev, deleteBindingRun c fuel i b = some (ev, none)) →
      ∃ ev, cleanupBindings c fuel i bs = some (ev, none) ∧
        ev.countP (fun e => e.isBindDel) = bs.length := by
  intro bs
  induction bs with
  | nil => intro _; exact ⟨[], rfl, rfl⟩
  | cons b bs ih =>
    intro hsucc
    obtain ⟨ev1, h1⟩ := hsucc b (List.mem_cons_self b bs)
    obtain ⟨ev2, h2, hc2⟩ := ih (fun b2 hb2 => hsucc b2 (List.mem_cons.mpr (Or.inr hb2)))
    refine ⟨ev1 ++ ev2, ?_, ?_⟩
    · simp only [cleanupBindings, h1, h2]
    · rw [List.countP_append, hc2, (deleteBindingRun_props c fuel i b ev1 none h1).2]
      simp only [List.length_cons]
      omega

theorem lookup_filter_isSome {em : List (String × String)}
    {p : String × String → Bool} {k : String}
    (h : ((em.filter p).lookup k).isSome) : (em.lookup k).isSome := by
  induction em with
  | nil => simp [List.filter] at h
  | cons a em ih =>
    by_cases hp : p a = true
    · rw [List.filter_cons_of_pos hp] at h
      rw [List.lookup] at h ⊢
      by_cases hk : (k == a.1) = true
      · simp [hk]
      · simp only [hk, Bool.false_eq_true, if_false] at h ⊢
        exact ih h
    · rw [List.filter_cons_of_neg (by simpa using hp)] at h
      rw [List.lookup]
      by_cases hk : (k == a.1) = true
      · simp [hk]
      · simp only [hk, Bool.false_eq_true, if_false]
        exact ih h

theorem mapInsert_lookup {em : List (String × String)} {k v k2 : String}
    (h : ((mapInsert em k v).lookup k2).isSome) :
    k2 = k ∨ (em.lookup k2).isSome := by
  unfold mapInsert at h
  rw [List.lookup] at h
  by_cases hk : (k2 == k) = true
  · exact Or.inl (by simpa using hk)
  · simp only [hk, Bool.false_eq_true, if_false] at h
    exact Or.inr (lookup_filter_isSome h)

theorem cleanupInstanceStep_shape (c : ClientModel) (fuel : Nat)
    (st : List CleanupEvent × List (String × String)) (i : CleanupInstance)
    (st2 : List CleanupEvent × List (String × String))
    (h : cleanupInstanceStep c fuel st i = some st2) :
    ∃ bev iev, st2.1 = st.1 ++ bev ++ iev ∧
      (∀ e ∈ bev, e.instID = i.ID ∧ e.isInstDel = false) ∧
      (∀ e ∈ iev, e.instID = i.ID ∧ e.isBindDel = false) ∧
      (∀ k, (st2.2.lookup k).isSome → (st.2.lookup k).isSome ∨ k = i.ID) := by
  unfold cleanupInstanceStep at h
  split at h
  · exact absurd h (by simp)
  · rename_i ev e1 heq
    simp only [Option.some.injEq] at h
    subst h
    refine ⟨ev, [], by simp, cleanupBindings_events c fuel i i.bindings ev (some e1) heq,
      by simp, ?_⟩
    intro k hk
    rcases mapInsert_lookup hk with h1 | h2
    · exact Or.inr h1
    · exact Or.inl h2
  · rename_i ev heq
    split at h
    · rename_i hlk
      simp only [Option.some.injEq] at h
      subst h
      exact ⟨ev, [], by simp, cleanupBindings_events c fuel i i.bindings ev none heq,
        by simp, fun k hk => Or.inl hk⟩
    · rename_i hlk
      split at h
      · exact absurd h (by simp)
      · rename_i ev2 e2 heq2
        simp only [Option.some.injEq] at h
        subst h
        refine ⟨ev, ev2, rfl, cleanupBindings_events c fuel i i.bindings ev none heq,
          (deleteInstanceRun_props c fuel i ev2 (some e2) heq2).1, ?_⟩
        intro k hk
        rcases mapInsert_lookup hk with h1 | h2
        · exact Or.inr h1
        · exact Or.inl h2
      · rename_i ev2 heq2
        simp only [Option.some.injEq] at h
        subst h
        exact ⟨ev, ev2, rfl, cleanupBindings_events c fuel i i.bindings ev none heq,
          (deleteInstanceRun_props c fuel i ev2 none heq2).1, fun k hk => Or.inl hk⟩

theorem cleanupInstanceStep_count (c : ClientModel) (fuel : Nat)
    (st : List CleanupEvent × List (String × String)) (i : CleanupInstance)
    (st2 : List CleanupEvent × List (String × String))
    (hsucc : ∀ b ∈ i.bindings, ∃ ev, deleteBindingRun c fuel i b = some (ev, none))
    (hlk : st.2.lookup i.ID = none)
    (h : cleanupInstanceStep c fuel st i = some st2) :
    ∃ ev, st2.1 = st.1 ++ ev ∧
      ev.countP (fun e => e.isBindDel) = i.bindings.length ∧
      ev.countP (fun e => e.isInstDel) = 1 ∧
      ∀ e ∈ ev, e.instID = i.ID := by
  obtain ⟨bev, hb, hbc⟩ := cleanupBindings_success c fuel i i.bindings hsucc
  have hbev := cleanupBindings_events c fuel i i.bindings bev none hb
  unfold cleanupInstanceStep at h
  split at h
  · rename_i heq
    rw [hb] at heq
    cases heq
  · rename_i ev e1 heq
    rw [hb] at heq
    simp only [Option.some.injEq, Prod.mk.injEq] at heq
    exact absurd heq.2.symm (by simp)
  · rename_i ev heq
    rw [hb] at heq
    simp only [Option.some.injEq, Prod.mk.injEq] at heq
    obtain ⟨hev, -⟩ := heq
    subst hev
    split at h
    · rename_i hlk2
      rw [hlk] at hlk2
      simp at hlk2
    · split at h
      · exact absurd h (by simp)
      · rename_i ev2 e2 heq2
        simp only [Option.some.injEq] at h
        subst h
        have hip := deleteInstanceRun_props c fuel i ev2 (some e2) heq2
        refine ⟨bev ++ ev2, by simp, ?_, ?_, ?_⟩
        · rw [List.countP_append, hbc,
            List.countP_eq_zero.mpr (fun e he => by simp [(hip.1 e he).2])]
          omega
        · rw [List.countP_append, hip.2,
            List.countP_eq_zero.mpr (fun e he => by simp [(hbev e he).2])]
        · intro e he
          rcases List.mem_append.mp he with h1 | h2
          · exact (hbev e h1).1
          · exact (hip.1 e h2).1
      · rename_i ev2 heq2
        simp only [Option.some.injEq] at h
        subst h
        have hip := deleteInstanceRun_props c fuel i ev2 none heq2
        refine ⟨bev ++ ev2, by simp, ?_, ?_, ?_⟩
        · rw [List.countP_append, hbc,
            List.countP_eq_zero.mpr (fun e he => by simp [(hip.1 e he).2])]
          omega
        · rw [List.countP_append, hip.2,
            List.countP_eq_zero.mpr (fun e he => by simp [(hbev e he).2])]
        · intro e he
          rcases List.mem_append.mp he with h1 | h2
          · exact (hbev e h1).1
          · exact (hip.1 e h2).1

theorem cleanupRun_extend (c : ClientModel) (fuel : Nat) :
    ∀ (is : List CleanupInstance) (st st2 : List CleanupEvent × List (String × String)),
      cleanupRun c fuel is st = some st2 →
      ∃ ev, st2.1 = st.1 ++ ev ∧
        (∀ e ∈ ev, ∃ j ∈ is, e.instID = j.ID) ∧
        (∀ k, (st2.2.lookup k).isSome → (st.2.lookup k).isSome ∨ ∃ j ∈ is, k = j.ID) := by
  intro is
  induction is with
  | nil =>
    intro st st2 h
    simp only [cleanupRun, Option.some.injEq] at h
    subst h
    exact ⟨[], by simp, by simp, fun k hk => Or.inl hk⟩
  | cons i is ih =>
    intro st st2 h
    simp only [cleanupRun] at h
    split at h
    · exact absurd h (by simp)
    · rename_i st3 hs
      obtain ⟨bev, iev, h31, h32, h33, h34⟩ := cleanupInstanceStep_shape c fuel st i st3 hs
      obtain ⟨ev, h21, h22, h23⟩ := ih st3 st2 h
      refine ⟨bev ++ iev ++ ev, ?_, ?_, ?_⟩
      · rw [h21, h31]
        simp [List.append_assoc]
      · intro e he
        rcases List.mem_append.mp he with h1 | h2
        · rcases List.mem_append.mp h1 with hb1 | hi2
          · exact ⟨i, List.mem_cons_self i is, (h32 e hb1).1⟩
          · exact ⟨i, List.mem_cons_self i is, (h33 e hi2).1⟩
        · obtain ⟨j, hj, hje⟩ := h22 e h2
          exact ⟨j, List.mem_cons.mpr (Or.inr hj), hje⟩
      · intro k hk
        rcases h23 k hk with hk1 | ⟨j, hj, hje⟩
        · rcases h34 k hk1 with hk2 | hk3
          · exact Or.inl hk2
          · exact Or.inr ⟨i, List.mem_cons_self i is, hk3⟩
        · exact Or.inr ⟨j, List.mem_cons.mpr (Or.inr hj), hje⟩

theorem cleanupRun_append (c : ClientModel) (fuel : Nat) :
    ∀ (xs ys : List CleanupInstance) (st st2 : List CleanupEvent × List (String × String)),
      cleanupRun c fuel (xs ++ ys) st = some st2 →
      ∃ st1, cleanupRun c fuel xs st = some st1 ∧ cleanupRun c fuel ys st1 = some st2 := by
  intro xs
  induction xs with
  | nil => intro ys st st2 h; exact ⟨st, rfl, h⟩
  | cons x xs ih =>
    intro ys st st2 h
    rw [List.cons_append] at h
    simp only [cleanupRun] at h ⊢
    split at h
    · exact absurd h (by simp)
    · rename_i st3 hs
      exact ih ys st3 st2 h

theorem order_of_split {α : Type} (t A B : List α) (P Q : α → Prop)
    (hT : t = A ++ B) (hA : ∀ e ∈ A, ¬ Q e) (hB : ∀ e ∈ B, ¬ P e) :
    ∀ (j k : Nat) (ej ek : α), t[j]? = some ej → t[k]? = some ek →
      P ej → Q ek → j < k := by
  intro j k ej ek hj hk hP hQ
  have hjA : j < A.length := by
    by_contra hge
    push_neg at hge
    rw [hT, List.getElem?_append_right hge] at hj
    exact hB ej (List.getElem?_mem hj) hP
  have hkA : A.length ≤ k := by
    by_contra hlt
    push_neg at hlt
    rw [hT, List.getElem?_append, if_pos hlt] at hk
    exact hA ek (List.getElem?_mem hk) hQ
  omega

/-- C9: in every run of broker cleanup, for each instance every
DeleteBinding call for that instance (each polled to a terminal state via
waitOnOperation inside deleteBinding) is issued before that instance's
DeleteInstance call; and when all of the instance's binding deletions
succeed, the trace contains exactly one binding-delete call per binding
and exactly one instance-delete call — in particular an instance with 2
bindings gets exactly 2 binding deletes before its 1 instance delete. -/
theorem cleanup_bindings_before_instance (c : ClientModel) (fuel : Nat)
    (instances : List CleanupInstance)
    (hnd : (instances.map CleanupInstance.ID).Nodup)
    (i : CleanupInstance) (hi : i ∈ instances)
    (t : List CleanupEvent) (em : List (String × String))
    (h : cleanupBroker c fuel instances = some (t, em)) :
    (∀ (j k : Nat) (ej ek : CleanupEvent), t[j]? = some ej → t[k]? = some ek →
      ej.isBindDel = true → ej.instID = i.ID →
      ek.isInstDel = true → ek.instID = i.ID → j < k) ∧
    ((∀ b ∈ i.bindings, ∃ ev, deleteBindingRun c fuel i b = some (ev, none)) →
      t.countP (fun e => e.isBindDel && (e.instID == i.ID)) = i.bindings.length ∧
      t.countP (fun e => e.isInstDel && (e.instID == i.ID)) = 1) := by
  obtain ⟨is1, is2, rfl⟩ := List.append_of_mem hi
  have hmap : (is1.map CleanupInstance.ID ++
      i.ID :: is2.map CleanupInstance.ID).Nodup := by
    simpa using hnd
  have hnd3 := List.nodup_append.mp hmap
  have hni2 : i.ID ∉ is2.map CleanupInstance.ID := (List.nodup_cons.mp hnd3.2.1).1
  have hni1 : i.ID ∉ is1.map CleanupInstance.ID :=
    fun hmem => hnd3.2.2 hmem (List.mem_cons_self _ _)
  unfold cleanupBroker at h
  obtain ⟨st1, h1, h2⟩ := cleanupRun_append c fuel is1 (i :: is2) ([], []) (t, em) h
  simp only [cleanupRun] at h2
  split at h2
  · exact absurd h2 (by simp)
  · rename_i st2 hstep
    obtain ⟨ev1, hT1, hev1, hkeys1⟩ := cleanupRun_extend c fuel is1 ([], []) st1 h1
    simp only [List.nil_append] at hT1
    obtain ⟨bev, iev, hT2, hbev, hiev, hkeys2⟩ :=
      cleanupInstanceStep_shape c fuel st1 i st2 hstep
    obtain ⟨ev3, hT3, hev3, hkeys3⟩ := cleanupRun_extend c fuel is2 st2 (t, em) h2
    simp only at hT3
    have hne1 : ∀ e ∈ ev1, e.instID ≠ i.ID := by
      intro e he heq
      obtain ⟨j, hj, hje⟩ := hev1 e he
      apply hni1
      have hm := List.mem_map_of_mem CleanupInstance.ID hj
      rwa [← hje, heq] at hm
    have hne3 : ∀ e ∈ ev3, e.instID ≠ i.ID := by
      intro e he heq
      obtain ⟨j, hj, hje⟩ := hev3 e he
      apply hni2
      have hm := List.mem_map_of_mem CleanupInstance.ID hj
      rwa [← hje, heq] at hm
    refine ⟨?_, ?_⟩
    · intro j k ej ek hj hk hb1 hb2 hi1 hi2
      refine order_of_split t (ev1 ++ bev) (iev ++ ev3)
        (fun e => e.isBindDel = true ∧ e.instID = i.ID)
        (fun e => e.isInstDel = true ∧ e.instID = i.ID)
        ?_ ?_ ?_ j k ej ek hj hk ⟨hb1, hb2⟩ ⟨hi1, hi2⟩
      · rw [hT3, hT2, hT1]
        simp [List.append_assoc]
      · intro e he hq
        rcases List.mem_append.mp he with hm1 | hm2
        · exact hne1 e hm1 hq.2
        · rw [(hbev e hm2).2] at hq
          exact absurd hq.1 (by simp)
      · intro e he hp
        rcases List.mem_append.mp he with hm1 | hm2
        · rw [(hiev e hm1).2] at hp
          exact absurd hp.1 (by simp)
        · exact hne3 e hm2 hp.2
    · intro hsucc
      have hlk : st1.2.lookup i.ID = none := by
        cases hcase : st1.2.lookup i.ID with
        | none => rfl
        | some v =>
          have hsome : (st1.2.lookup i.ID).isSome := by rw [hcase]; rfl
          rcases hkeys1 i.ID hsome with hk1 | ⟨j, hj, hje⟩
          · simp [List.lookup] at hk1
          · apply absurd _ hni1
            rw [hje]
            exact List.mem_map_of_mem CleanupInstance.ID hj
      obtain ⟨sev, hsev1, hsc1, hsc2, hsmem⟩ :=
        cleanupInstanceStep_count c fuel st1 i st2 hsucc hlk hstep
      have ht2 : t = ev1 ++ sev ++ ev3 := by
        rw [hT3, hsev1, hT1]
      have hz1b : ev1.countP (fun e => e.isBindDel && (e.instID == i.ID)) = 0 :=
        List.countP_eq_zero.mpr (fun e he => by simp [hne1 e he])
      have hz3b : ev3.countP (fun e => e.isBindDel && (e.instID == i.ID)) = 0 :=
        List.countP_eq_zero.mpr (fun e he => by simp [hne3 e he])
      have hz1i : ev1.countP (fun e => e.isInstDel && (e.instID == i.ID)) = 0 :=
        List.countP_eq_zero.mpr (fun e he => by simp [hne1 e he])
      have hz3i : ev3.countP (fun e => e.isInstDel && (e.instID == i.ID)) = 0 :=
        List.countP_eq_zero.mpr (fun e he => by simp [hne3 e he])
      have hsb : sev.countP (fun e => e.isBindDel && (e.instID == i.ID)) =
          i.bindings.length := by
        rw [← hsc1]
        apply List.countP_congr
        intro e he
        simp [hsmem e he]
      have hsi : sev.countP (fun e => e.isInstDel && (e.instID == i.ID)) = 1 := by
        rw [← hsc2]
        apply List.countP_congr
        intro e he
        simp [hsmem e he]
      constructor
      · rw [ht2, List.countP_append, List.countP_append, hz1b, hsb, hz3b]
        omega
      · rw [ht2, List.countP_append, List.countP_append, hz1i, hsi, hz3i]

theorem cleanup_bindings_before_instance_witness :
    cleanupBroker
      { deleteBindingRes := fun _ _ => Except.ok { Async := true, OperationID := "op" }
        bindingLastOpRes := fun _ _ _ => Except.ok { State := "succeeded", Description := "" }
        deleteInstanceRes := fun _ => Except.ok { Async := true, OperationID := "op" }
        instanceLastOpRes := fun _ _ => Except.ok { State := "succeeded", Description := "" } }
      3 [{ ID := "i1", serviceID := "s", planID := "p", bindings := ["b1", "b2"] }] =
      some ([CleanupEvent.bindDel "i1" "b1", CleanupEvent.bindPoll "i1" "b1",
        CleanupEvent.bindDel "i1" "b2", CleanupEvent.bindPoll "i1" "b2",
        CleanupEvent.instDel "i1", CleanupEvent.instPoll "i1"], []) ∧
    List.countP (fun e => e.isBindDel && (e.instID == "i1"))
      [CleanupEvent.bindDel "i1" "b1", CleanupEvent.bindPoll "i1" "b1",
        CleanupEvent.bindDel "i1" "b2", CleanupEvent.bindPoll "i1" "b2",
        CleanupEvent.instDel "i1", CleanupEvent.instPoll "i1"] = 2 ∧
    List.countP (fun e => e.isInstDel && (e.instID == "i1"))
      [CleanupEvent.bindDel "i1" "b1", CleanupEvent.bindPoll "i1" "b1",
        CleanupEvent.bindDel "i1" "b2", CleanupEvent.bindPoll "i1" "b2",
        CleanupEvent.instDel "i1", CleanupEvent.instPoll "i1"] = 1 := by
  refine ⟨rfl, ?_⟩
  have happ := (cleanup_bindings_before_instance
    { deleteBindingRes := fun _ _ => Except.ok { Async := true, OperationID := "op" }
      bindingLastOpRes := fun _ _ _ => Except.ok { State := "succeeded", Description := "" }
      deleteInstanceRes := fun _ => Except.ok { Async := true, OperationID := "op" }
      instanceLastOpRes := fun _ _ => Except.ok { State := "succeeded", Description := "" } }
    3 [{ ID := "i1", serviceID := "s", planID := "p", bindings := ["b1", "b2"] }]
    (by simp)
    { ID := "i1", serviceID := "s", planID := "p", bindings := ["b1", "b2"] }
    (List.mem_cons_self _ _)
    [CleanupEvent.bindDel "i1" "b1", CleanupEvent.bindPoll "i1" "b1",
      CleanupEvent.bindDel "i1" "b2", CleanupEvent.bindPoll "i1" "b2",
      CleanupEvent.instDel "i1", CleanupEvent.instPoll "i1"] [] rfl).2
  refine happ ?_
  intro b hb
  rcases List.mem_cons.mp hb with rfl | hb2
  · exact ⟨_, rfl⟩
  · rcases List.mem_cons.mp hb2 with rfl | hb3
    · exact ⟨_, rfl⟩
    · cases hb3
